import Mathlib

/-!
# Verification of the block-builder subsystem

A shallow embedding, in Lean 4, of the block-builder of the
Student-Grievance-System repository: the Merkle-tree service
(`backend/services/merkleTreeService.js`), the block service
(`backend/services/blockService.js`), and the relevant SQLite schema
(`backend/config/sqlite.js`).

Modelling conventions:

* SHA-256 is modelled symbolically: `HashVal.digest s` stands for the
  digest of the string `s`, and `HashVal.node a b` stands for the digest
  of the concatenation of the two hex digests `a` and `b`.  Since SHA-256
  is collision resistant, distinct symbolic terms stand for distinct
  digests; this is the standard idealization and the only assumption the
  theorems below ride on.  `combineHashes` sorts its two arguments before
  concatenating, exactly as the source does, so it is modelled as the
  symbolic node of the ordered pair under a fixed total order.
* JavaScript numbers carrying sentiment scores and priority weights are
  modelled as rationals (`ℚ`).  Every constant appearing in the source
  (0.3, 0.6, the weights 3/2/1) is exactly representable in binary or
  used only in comparisons whose outcome agrees with the rational
  semantics on the inputs considered here.
* SQL tables are lists of typed rows; `AUTOINCREMENT` ids are modelled as
  `max + 1`; `DATETIME` values are naturals ordered as the corresponding
  strings are.  Each `await query(...)` of the source is one step of a
  state-passing function; the source opens no transaction, so every step
  commits individually.
-/

namespace SGS

/-! ## Hashes, symbolically -/

/-- A SHA-256 digest, symbolically: either the digest of a data string
(a leaf's `createComplaintHash` input) or the digest of the concatenation
of two (sorted) child digests. -/
inductive HashVal where
  | digest (data : String)
  | node (a b : HashVal)
deriving DecidableEq, Repr

/-- Lexicographic comparison of character lists by code point. -/
def charsLe : List Char → List Char → Bool
  | [], _ => true
  | _ :: _, [] => false
  | c :: cs, d :: ds =>
    if c.toNat < d.toNat then true
    else if d.toNat < c.toNat then false
    else charsLe cs ds

/-- Lexicographic string comparison by code points (how
`Array.prototype.sort` compares the hex digest strings). -/
def strLe (a b : String) : Bool := charsLe a.data b.data

/-- A total "lexicographic" comparison on symbolic hashes, standing in for
the lexicographic order on hex digest strings that `Array.prototype.sort`
applies in `combineHashes`.  Any fixed total order is a faithful model:
the source's order on actual hex strings and this order on symbolic terms
both just pick a canonical ordering of each unordered pair. -/
def HashVal.leb : HashVal → HashVal → Bool
  | .digest a, .digest b => strLe a b
  | .digest _, .node _ _ => true
  | .node _ _, .digest _ => false
  | .node a b, .node c d => if a = c then HashVal.leb b d else HashVal.leb a c

/-- `combineHashes(left, right)`: sort the two hashes, concatenate, digest
(merkleTreeService.js, `combineHashes`). -/
def combineHashes (left right : HashVal) : HashVal :=
  if HashVal.leb left right then .node left right else .node right left

/-- `createComplaintHash(complaintId, ipfsHash, sqliteRowId)`: digest of the
concatenation of the three stringified inputs (merkleTreeService.js). -/
def createComplaintHash (complaintId ipfsHash sqliteRowId : String) : HashVal :=
  .digest (complaintId ++ ipfsHash ++ sqliteRowId)

/-! ## Complaints (rows of the `complaints` table that the block builder reads) -/

/-- A row of the `complaints` table, restricted to the columns the block
builder reads (sqlite.js, `CREATE TABLE complaints`).  `ai_sentiment` is
nullable until classified; `created_at` is a `DATETIME`, modelled as a
natural number since SQLite compares datetime strings lexicographically,
which agrees with chronological order. -/
structure Complaint where
  id : Nat
  category : String
  ipfs_hash : String
  ai_sentiment : Option ℚ
  similarity_score : Option ℚ
  created_at : Nat
deriving DecidableEq, Repr

/-- `merkleTreeService.hashComplaint(complaint)`: leaf hash from
`(id.toString(), ipfs_hash || '', sqlite_id || id)`.  The complaint rows the
block service passes in carry no `sqlite_id` field, so the `||` fallback
always selects `id`. -/
def hashComplaint (c : Complaint) : HashVal :=
  createComplaintHash (toString c.id) c.ipfs_hash (toString c.id)

/-! ## The Merkle tree (`buildMerkleTree`) -/

/-- One bottom-up level step of `buildMerkleTree`'s `while` loop body: hash
adjacent pairs; `currentLevel[i + 1] || left` duplicates the last hash of an
odd-length level. -/
def pairUp : List HashVal → List HashVal
  | [] => []
  | [a] => [combineHashes a a]
  | a :: b :: rest => combineHashes a b :: pairUp rest

theorem pairUp_length : ∀ l : List HashVal, (pairUp l).length = (l.length + 1) / 2
  | [] => by simp [pairUp]
  | [_] => by simp [pairUp]
  | _ :: _ :: rest => by simp [pairUp, pairUp_length rest]; omega

/-- The `tree` array of `buildMerkleTree`: level 0 is the leaf list, and the
`while (currentLevel.length > 1)` loop pushes `pairUp` of each level until a
level has a single hash. -/
def buildLevels (l : List HashVal) : List (List HashVal) :=
  if l.length ≤ 1 then [l]
  else l :: buildLevels (pairUp l)
termination_by l.length
decreasing_by simp [pairUp_length]; omega

/-- The value `buildMerkleTree` returns: all levels, the root (the single
hash of the top level), `depth = tree.length - 1`, and the leaf count. -/
structure MerkleTree where
  levels : List (List HashVal)
  root : HashVal
  depth : Nat
  leafCount : Nat
deriving DecidableEq, Repr

/-- `buildMerkleTree(complaints)` (merkleTreeService.js): throws on an empty
input (modelled as `none`), otherwise maps each complaint to its leaf hash
and folds levels bottom-up. -/
def buildMerkleTree (complaints : List Complaint) : Option MerkleTree :=
  if complaints.isEmpty then none
  else
    let leaves := complaints.map hashComplaint
    let levels := buildLevels leaves
    some { levels := levels
           root := (levels.getLastD []).headD (.digest "")
           depth := levels.length - 1
           leafCount := leaves.length }

/-! ## Proof generation and verification -/

/-- The loop body of `generateMerkleProof`: for each level below the top,
take the sibling index (`index + 1` if even, `index - 1` if odd) and push
the sibling hash **only if that index is inside the level**
(`if (siblingIndex < currentLevelNodes.length)`); then halve the index.
Note: when the leaf sits at the duplicated last position of an odd-length
level, the sibling index falls outside the level and nothing is pushed. -/
def proofSiblings : List (List HashVal) → Nat → List HashVal
  | [], _ => []
  | lvl :: rest, idx =>
    let sib := if idx % 2 = 0 then idx + 1 else idx - 1
    (if h : sib < lvl.length then [lvl.get ⟨sib, h⟩] else []) ++
      proofSiblings rest (idx / 2)

/-- `generateMerkleProof(merkleTree, leafIndex)`: throws (modelled as `none`)
when the index is out of range, otherwise walks every level except the top
(`level < merkleTree.tree.length - 1`). -/
def generateMerkleProof (t : MerkleTree) (leafIndex : Nat) : Option (List HashVal) :=
  if leafIndex < t.leafCount then some (proofSiblings t.levels.dropLast leafIndex)
  else none

/-- One step of `verifyMerkleProof`'s loop: combine on the left when the
current index is even, on the right when odd. -/
def verifyStep (currentHash siblingHash : HashVal) (idx : Nat) : HashVal :=
  if idx % 2 = 0 then combineHashes currentHash siblingHash
  else combineHashes siblingHash currentHash

/-- The loop of `verifyMerkleProof`: replay the combines up the proof list,
halving the index after each element. -/
def verifyFold : List HashVal → HashVal → Nat → HashVal
  | [], h, _ => h
  | sib :: rest, h, idx => verifyFold rest (verifyStep h sib idx) (idx / 2)

/-- `verifyMerkleProof(proof, root, leafHash, leafIndex)`: recompute the root
from the leaf along the proof and compare with `root`. -/
def verifyMerkleProof (proof : List HashVal) (root leafHash : HashVal)
    (leafIndex : Nat) : Bool :=
  decide (verifyFold proof leafHash leafIndex = root)

/-- `validateMerkleTree(merkleTree)`: the level count must be
`ceil(log2(leafCount)) + 1` whenever `leafCount > 1` (the nested `if` of the
source always returns `false` when reached, since `leafCount > 1` already
holds there), and the top level must be exactly `[root]`.
`Math.ceil(Math.log2 n)` is `Nat.clog 2 n` (exact for every leaf count a
batch can have). -/
def validateMerkleTree (t : MerkleTree) : Bool :=
  let expectedLevels := Nat.clog 2 t.leafCount + 1
  if t.levels.length ≠ expectedLevels ∧ 1 < t.leafCount then false
  else
    match t.levels.getLastD [] with
    | [r] => decide (r = t.root)
    | _ => false

/-! ### Concrete three-leaf tree used by C1 and C6

Three complaints with ids 1, 2, 3 and empty IPFS hashes: the leaves are the
digests of `"11"`, `"22"`, `"33"`. -/

def cmplA : Complaint :=
  { id := 1, category := "hostel", ipfs_hash := "", ai_sentiment := some 0,
    similarity_score := none, created_at := 1 }

def cmplB : Complaint :=
  { id := 2, category := "hostel", ipfs_hash := "", ai_sentiment := some 0,
    similarity_score := none, created_at := 2 }

def cmplC : Complaint :=
  { id := 3, category := "mess", ipfs_hash := "", ai_sentiment := some 0,
    similarity_score := none, created_at := 3 }

/-- The three symbolic leaves of the concrete tree. -/
def leafA : HashVal := .digest "11"
def leafB : HashVal := .digest "22"
def leafC : HashVal := .digest "33"

theorem hash_cmplA : hashComplaint cmplA = leafA := rfl
theorem hash_cmplB : hashComplaint cmplB = leafB := rfl
theorem hash_cmplC : hashComplaint cmplC = leafC := rfl

/-- The tree `buildMerkleTree` produces on the three concrete complaints:
level 1 pairs `leafA` with `leafB` and duplicates `leafC`, level 2 is the
root. -/
def tree3 : MerkleTree :=
  { levels := [[leafA, leafB, leafC],
               [combineHashes leafA leafB, combineHashes leafC leafC],
               [combineHashes (combineHashes leafA leafB)
                 (combineHashes leafC leafC)]],
    root := combineHashes (combineHashes leafA leafB)
              (combineHashes leafC leafC),
    depth := 2,
    leafCount := 3 }

/-- The concrete three-leaf tree, fully evaluated. -/
theorem buildMerkleTree_three :
    buildMerkleTree [cmplA, cmplB, cmplC] = some tree3 := by
  have h1 : [cmplA, cmplB, cmplC].map hashComplaint = [leafA, leafB, leafC] := rfl
  rw [buildMerkleTree]
  simp only [List.isEmpty, h1]
  rw [buildLevels, buildLevels, buildLevels]
  simp [pairUp, tree3]

/-- C1: the claim asserts the proof round-trip succeeds for every leaf of
trees of sizes 1, 2, 3, 5, 8, 13, including leaves whose sibling position
falls on the duplicated last element of an odd-length level.  The code
violates this: in the 3-leaf tree, the proof generated for leaf 2 (whose
level-0 sibling position 3 falls outside the level, so `generateMerkleProof`
pushes nothing for that level instead of the duplicated `leafC`) is rejected
by `verifyMerkleProof`, because the replayed root lacks the
`combine(leafC, leafC)` step of the real root. -/
theorem C1_roundtrip_fails_on_duplicated_sibling :
    buildMerkleTree [cmplA, cmplB, cmplC] = some tree3 ∧
    generateMerkleProof tree3 2 = some [combineHashes leafA leafB] ∧
    verifyMerkleProof [combineHashes leafA leafB] tree3.root
      (hashComplaint cmplC) 2 = false :=
  ⟨buildMerkleTree_three, by decide, by decide⟩

/-- C6: the claim asserts `generateProof` returns exactly `depth` sibling
hashes for every valid leaf index.  The code violates this: for leaf 2 of
the 3-leaf tree (depth 2) the proof has a single element, because the
sibling slot that falls on the duplicated last element of the odd-length
leaf level is skipped rather than clamped. -/
theorem C6_proof_length_falls_short_of_depth :
    buildMerkleTree [cmplA, cmplB, cmplC] = some tree3 ∧
    tree3.depth = 2 ∧
    (generateMerkleProof tree3 2).map List.length = some 1 :=
  ⟨buildMerkleTree_three, rfl, by decide⟩

/-- C10: verification with an empty proof list runs zero combine steps, so
it returns `true` exactly when the presented leaf hash equals the root, for
every claimed leaf index; in particular the lone leaf of a single-leaf tree
(whose root is that leaf hash) verifies with the empty proof at any index. -/
theorem C10_empty_proof_verifies_iff_leaf_eq_root :
    (∀ (root leafHash : HashVal) (i : Nat),
        verifyMerkleProof [] root leafHash i = true ↔ leafHash = root) ∧
    (∀ (c : Complaint) (i : Nat),
        ∃ t, buildMerkleTree [c] = some t ∧
          verifyMerkleProof [] t.root (hashComplaint c) i = true) := by
  constructor
  · intro root leafHash i
    simp [verifyMerkleProof, verifyFold]
  · intro c i
    have hb : buildLevels [hashComplaint c] = [[hashComplaint c]] := by
      rw [buildLevels]; simp
    refine ⟨{ levels := [[hashComplaint c]], root := hashComplaint c,
              depth := 0, leafCount := 1 }, ?_, ?_⟩
    · simp [buildMerkleTree, hb]
    · simp [verifyMerkleProof, verifyFold]

/-! ## Classification and aggregation (`blockService.classifyComplaints`)

The AI classifier (`generateComplaintInsights`) is an external collaborator;
it is modelled as a function `f : Complaint → ℚ` giving the sentiment score
it would return for a complaint (the claims below assume a deterministic
classifier, which this models).  A complaint's effective score is its stored
`ai_sentiment` when present, otherwise the classifier's answer. -/

/-- The sentiment score `classifyComplaints` works with: the stored
`ai_sentiment` if not null, else the classifier's score. -/
def effectiveSentiment (f : Complaint → ℚ) (c : Complaint) : ℚ :=
  c.ai_sentiment.getD (f c)

/-- `getSentimentMultiplier(sentimentScore)` (blockService.js): the
`sentimentMultipliers` policy constants — `critical = 3` below 0.3,
`high = 2` below 0.6, else `normal = 1`. -/
def getSentimentMultiplier (sentimentScore : ℚ) : ℚ :=
  if sentimentScore < 3/10 then 3
  else if sentimentScore < 6/10 then 2
  else 1

/-- The three sentiment tiers of the `if / else if / else` chain tracking
`sentimentBreakdown` and `sentimentStats`. -/
inductive Tier where
  | critical
  | high
  | normal
deriving DecidableEq, Repr

/-- Which tier a sentiment score falls in (same thresholds as the
multiplier). -/
def tierOf (s : ℚ) : Tier :=
  if s < 3/10 then .critical else if s < 6/10 then .high else .normal

/-- One entry of `classificationResults.categoryGroups`. -/
structure CatGroup where
  complaints : List Complaint
  count : Nat
  totalPriorityScore : ℚ
  averageSentiment : ℚ
  critical : Nat
  high : Nat
  normal : Nat
deriving DecidableEq, Repr

/-- The group object created when a category is first seen. -/
def CatGroup.init : CatGroup :=
  { complaints := [], count := 0, totalPriorityScore := 0,
    averageSentiment := 0, critical := 0, high := 0, normal := 0 }

/-- One entry of `classificationResults.processedComplaints`: the complaint
together with the annotations the loop spreads onto it. -/
structure ProcessedComplaint where
  complaint : Complaint
  sentimentScore : ℚ
  sentimentMultiplier : ℚ
  priorityScore : ℚ
deriving DecidableEq, Repr

/-- `classificationResults.sentimentStats`: the complaints of each tier,
in processing order. -/
structure SentimentLists where
  critical : List Complaint
  high : List Complaint
  normal : List Complaint
deriving DecidableEq, Repr

/-- The mutable `classificationResults` object as the per-complaint loop
sees it (before the top-category pass). -/
structure ClassAcc where
  categoryGroups : List (String × CatGroup)
  sentimentStats : SentimentLists
  totalPriorityScore : ℚ
  processed : List ProcessedComplaint
deriving DecidableEq, Repr

/-- The empty `classificationResults` the function starts from. -/
def ClassAcc.empty : ClassAcc :=
  { categoryGroups := [], sentimentStats := ⟨[], [], []⟩,
    totalPriorityScore := 0, processed := [] }

/-- `categoryGroups` is a JS object keyed by category name; since category
names are non-numeric strings, `Object.entries` enumerates them in insertion
order, so the object is modelled as an association list to which
`updateGroup` appends a fresh `CatGroup.init`-based entry when the key is
absent and edits the entry in place when present. -/
def updateGroup : List (String × CatGroup) → String → (CatGroup → CatGroup) →
    List (String × CatGroup)
  | [], cat, upd => [(cat, upd CatGroup.init)]
  | (c, g) :: rest, cat, upd =>
    if c = cat then (c, upd g) :: rest else (c, g) :: updateGroup rest cat upd

/-- The loop body's mutations of one category group: push the complaint,
bump the count, add the priority score, bump the tier breakdown. -/
def addToGroup (c : Complaint) (s p : ℚ) (g : CatGroup) : CatGroup :=
  { g with
    complaints := g.complaints ++ [c]
    count := g.count + 1
    totalPriorityScore := g.totalPriorityScore + p
    critical := g.critical + (if tierOf s = .critical then 1 else 0)
    high := g.high + (if tierOf s = .high then 1 else 0)
    normal := g.normal + (if tierOf s = .normal then 1 else 0) }

/-- One iteration of the `for (const complaint of complaints)` loop. -/
def classifyStep (f : Complaint → ℚ) (acc : ClassAcc) (c : Complaint) : ClassAcc :=
  let s := effectiveSentiment f c
  let m := getSentimentMultiplier s
  { categoryGroups := updateGroup acc.categoryGroups c.category (addToGroup c s m)
    sentimentStats :=
      match tierOf s with
      | .critical =>
        { acc.sentimentStats with critical := acc.sentimentStats.critical ++ [c] }
      | .high =>
        { acc.sentimentStats with high := acc.sentimentStats.high ++ [c] }
      | .normal =>
        { acc.sentimentStats with normal := acc.sentimentStats.normal ++ [c] }
    totalPriorityScore := acc.totalPriorityScore + m
    processed := acc.processed ++ [⟨c, s, m, m⟩] }

/-- The whole per-complaint loop. -/
def classifyFold (f : Complaint → ℚ) : ClassAcc → List Complaint → ClassAcc
  | acc, [] => acc
  | acc, c :: cs => classifyFold f (classifyStep f acc c) cs

/-- The second pass's mutation of each group:
`group.averageSentiment = group.totalPriorityScore / group.count`.
(Note: an average of the 3/2/1 priority *weights*, not of raw scores.) -/
def finalizeGroup (g : CatGroup) : CatGroup :=
  { g with averageSentiment := g.totalPriorityScore / (g.count : ℚ) }

/-- `weightedScore = group.count * group.averageSentiment`. -/
def weightedScore (g : CatGroup) : ℚ := (g.count : ℚ) * g.averageSentiment

/-- The top-category selection loop: starting from `topCategoryScore = 0`
and `topCategory = null`, take each category whose weighted score strictly
exceeds the best so far. -/
def selectTop : List (String × CatGroup) → ℚ → Option String → Option String
  | [], _, best => best
  | (c, g) :: rest, bestScore, best =>
    if bestScore < weightedScore g then selectTop rest (weightedScore g) (some c)
    else selectTop rest bestScore best

/-- The value `classifyComplaints` resolves with.  (In the source the
second pass mutates each group's `averageSentiment` and reads its weighted
score in the same iteration; finalizing every group first and then folding
for the top category is the same computation, since each group's score is
read only after its own finalization and depends on no other group.) -/
structure ClassificationResults where
  categoryGroups : List (String × CatGroup)
  sentimentStats : SentimentLists
  totalPriorityScore : ℚ
  topCategory : Option String
  processed : List ProcessedComplaint
deriving DecidableEq, Repr

/-- `classifyComplaints(complaints)` (blockService.js), as a pure function
of the fetched complaints and the classifier. -/
def classifyComplaints (f : Complaint → ℚ) (complaints : List Complaint) :
    ClassificationResults :=
  let acc := classifyFold f ClassAcc.empty complaints
  let groups := acc.categoryGroups.map (fun p => (p.1, finalizeGroup p.2))
  { categoryGroups := groups
    sentimentStats := acc.sentimentStats
    totalPriorityScore := acc.totalPriorityScore
    topCategory := selectTop groups 0 none
    processed := acc.processed }

/-! ### Lemmas about the classification fold -/

/-- Looking up the updated key finds the updated (or freshly created)
group. -/
theorem lookup_updateGroup_self (gs : List (String × CatGroup)) (cat : String)
    (upd : CatGroup → CatGroup) :
    (updateGroup gs cat upd).lookup cat =
      some (upd ((gs.lookup cat).getD CatGroup.init)) := by
  induction gs with
  | nil => simp [updateGroup, List.lookup]
  | cons p rest ih =>
    obtain ⟨c, g⟩ := p
    by_cases h : c = cat
    · subst h; simp [updateGroup, List.lookup]
    · have hbeq : (cat == c) = false := by
        simp [beq_eq_false_iff_ne, Ne.symm h]
      simp [updateGroup, List.lookup, h, hbeq, ih]

/-- Looking up any other key is unaffected by the update. -/
theorem lookup_updateGroup_ne (gs : List (String × CatGroup)) (cat cat' : String)
    (upd : CatGroup → CatGroup) (h : cat' ≠ cat) :
    (updateGroup gs cat upd).lookup cat' = gs.lookup cat' := by
  have hbc : (cat' == cat) = false := by simp [beq_eq_false_iff_ne, h]
  induction gs with
  | nil => simp [updateGroup, List.lookup, hbc]
  | cons p rest ih =>
    obtain ⟨c, g⟩ := p
    by_cases hc : c = cat
    · subst hc; simp [updateGroup, List.lookup, hbc]
    · simp only [updateGroup, if_neg hc, List.lookup, ih]

/-- The per-record annotation the loop attaches to a complaint. -/
def annotate (f : Complaint → ℚ) (c : Complaint) : ProcessedComplaint :=
  ⟨c, effectiveSentiment f c,
    getSentimentMultiplier (effectiveSentiment f c),
    getSentimentMultiplier (effectiveSentiment f c)⟩

/-- `processedComplaints` collects every complaint in input order, annotated
with its effective score and weight. -/
theorem classifyFold_processed (f : Complaint → ℚ) :
    ∀ (l : List Complaint) (acc : ClassAcc),
      (classifyFold f acc l).processed = acc.processed ++ l.map (annotate f)
  | [], acc => by simp [classifyFold]
  | c :: cs, acc => by
    simp [classifyFold, classifyFold_processed f cs, classifyStep, annotate]

/-- The running `totalPriorityScore` is the sum of every record's weight. -/
theorem classifyFold_total (f : Complaint → ℚ) :
    ∀ (l : List Complaint) (acc : ClassAcc),
      (classifyFold f acc l).totalPriorityScore =
        acc.totalPriorityScore +
          (l.map (fun c => getSentimentMultiplier (effectiveSentiment f c))).sum
  | [], acc => by simp [classifyFold]
  | c :: cs, acc => by
    simp [classifyFold, classifyFold_total f cs, classifyStep]
    ring

/-- Folding a list of complaints into one category group. -/
def extendGroup (f : Complaint → ℚ) (g : CatGroup) (l : List Complaint) : CatGroup :=
  l.foldl (fun g c =>
    addToGroup c (effectiveSentiment f c)
      (getSentimentMultiplier (effectiveSentiment f c)) g) g

/-- What the loop does to one category's group: exactly the fold of that
category's records, in input order, over the group present when the category
was first seen (`CatGroup.init`). -/
theorem classifyFold_lookup (f : Complaint → ℚ) :
    ∀ (l : List Complaint) (acc : ClassAcc) (cat : String),
      (classifyFold f acc l).categoryGroups.lookup cat =
        if (l.filter (fun c => c.category == cat)).isEmpty then
          acc.categoryGroups.lookup cat
        else
          some (extendGroup f ((acc.categoryGroups.lookup cat).getD CatGroup.init)
            (l.filter (fun c => c.category == cat)))
  | [], acc, cat => by simp [classifyFold]
  | c :: cs, acc, cat => by
    by_cases hc : c.category = cat
    · have hfilter : (c :: cs).filter (fun c => c.category == cat) =
          c :: cs.filter (fun c => c.category == cat) := by
        simp [List.filter_cons, hc]
      rw [classifyFold, classifyFold_lookup f cs _ cat, hfilter]
      have hself : ((classifyStep f acc c).categoryGroups.lookup cat) =
          some (addToGroup c (effectiveSentiment f c)
            (getSentimentMultiplier (effectiveSentiment f c))
            ((acc.categoryGroups.lookup cat).getD CatGroup.init)) := by
        simp only [classifyStep, hc]
        exact lookup_updateGroup_self _ _ _
      by_cases he : (cs.filter (fun c => c.category == cat)).isEmpty
      · rw [List.isEmpty_iff] at he
        simp [he, hself, extendGroup, List.isEmpty]
      · simp [he, hself, extendGroup]
    · have hfilter : (c :: cs).filter (fun c => c.category == cat) =
          cs.filter (fun c => c.category == cat) := by
        simp [List.filter_cons, hc]
      rw [classifyFold, classifyFold_lookup f cs _ cat, hfilter]
      have hne : ((classifyStep f acc c).categoryGroups.lookup cat) =
          acc.categoryGroups.lookup cat := by
        simp only [classifyStep]
        exact lookup_updateGroup_ne _ _ _ _ (fun h => hc h.symm)
      rw [hne]

theorem extendGroup_nil (f : Complaint → ℚ) (g : CatGroup) :
    extendGroup f g [] = g := rfl

theorem extendGroup_cons (f : Complaint → ℚ) (g : CatGroup) (c : Complaint)
    (cs : List Complaint) :
    extendGroup f g (c :: cs) =
      extendGroup f
        (addToGroup c (effectiveSentiment f c)
          (getSentimentMultiplier (effectiveSentiment f c)) g) cs := rfl

theorem extendGroup_count (f : Complaint → ℚ) :
    ∀ (l : List Complaint) (g : CatGroup),
      (extendGroup f g l).count = g.count + l.length
  | [], g => by simp [extendGroup_nil]
  | c :: cs, g => by
    rw [extendGroup_cons, extendGroup_count f cs]
    simp [addToGroup]; omega

theorem extendGroup_total (f : Complaint → ℚ) :
    ∀ (l : List Complaint) (g : CatGroup),
      (extendGroup f g l).totalPriorityScore =
        g.totalPriorityScore +
          (l.map (fun c => getSentimentMultiplier (effectiveSentiment f c))).sum
  | [], g => by simp [extendGroup_nil]
  | c :: cs, g => by
    rw [extendGroup_cons, extendGroup_total f cs]
    simp [addToGroup]; ring

theorem extendGroup_complaints (f : Complaint → ℚ) :
    ∀ (l : List Complaint) (g : CatGroup),
      (extendGroup f g l).complaints = g.complaints ++ l
  | [], g => by simp [extendGroup_nil]
  | c :: cs, g => by
    rw [extendGroup_cons, extendGroup_complaints f cs]
    simp [addToGroup]

/-- `extendGroup` never touches `averageSentiment` (only the second pass
writes it). -/
theorem extendGroup_avg (f : Complaint → ℚ) :
    ∀ (l : List Complaint) (g : CatGroup),
      (extendGroup f g l).averageSentiment = g.averageSentiment
  | [], g => by simp [extendGroup_nil]
  | c :: cs, g => by
    rw [extendGroup_cons, extendGroup_avg f cs]
    simp [addToGroup]

/-- Lookup commutes with the finalize pass. -/
theorem lookup_map_finalize (gs : List (String × CatGroup)) (cat : String) :
    (gs.map (fun p => (p.1, finalizeGroup p.2))).lookup cat =
      (gs.lookup cat).map finalizeGroup := by
  induction gs with
  | nil => simp [List.lookup]
  | cons p rest ih =>
    obtain ⟨c, g⟩ := p
    by_cases h : cat = c
    · subst h; simp [List.lookup]
    · have hbeq : (cat == c) = false := by simp [beq_eq_false_iff_ne, h]
      simp [List.lookup, hbeq, ih]

/-- The category-group map of `classifyComplaints`, solved: a category is
present iff it has a record, and its group is the finalized fold of its
records in input order. -/
theorem classifyComplaints_lookup (f : Complaint → ℚ) (l : List Complaint)
    (cat : String) :
    (classifyComplaints f l).categoryGroups.lookup cat =
      if (l.filter (fun c => c.category == cat)).isEmpty then none
      else
        some (finalizeGroup
          (extendGroup f CatGroup.init (l.filter (fun c => c.category == cat)))) := by
  show ((classifyFold f ClassAcc.empty l).categoryGroups.map
      (fun p => (p.1, finalizeGroup p.2))).lookup cat = _
  rw [lookup_map_finalize, classifyFold_lookup]
  by_cases he : (l.filter (fun c => c.category == cat)).isEmpty
  · simp [he, ClassAcc.empty, List.lookup]
  · simp [he, ClassAcc.empty, List.lookup]

/-! ### Concrete aggregation example ([0.1, 0.4, 0.8] in one category) -/

/-- A deterministic classifier (only consulted for null `ai_sentiment`). -/
def fHalf : Complaint → ℚ := fun _ => 1/2

def rA1 : Complaint :=
  { id := 10, category := "A", ipfs_hash := "", ai_sentiment := some (1/10),
    similarity_score := none, created_at := 1 }

def rA2 : Complaint :=
  { id := 11, category := "A", ipfs_hash := "", ai_sentiment := some (4/10),
    similarity_score := none, created_at := 2 }

def rA3 : Complaint :=
  { id := 12, category := "A", ipfs_hash := "", ai_sentiment := some (8/10),
    similarity_score := none, created_at := 3 }

/-- The group the aggregator builds for category `"A"` from severities
`[0.1, 0.4, 0.8]`: weights `[3, 2, 1]`, total `6`, average `2`. -/
def gA : CatGroup :=
  { complaints := [rA1, rA2, rA3], count := 3, totalPriorityScore := 6,
    averageSentiment := 2, critical := 1, high := 1, normal := 1 }

theorem classify_example_processed :
    (classifyComplaints fHalf [rA1, rA2, rA3]).processed.map
      (fun p => p.priorityScore) = [3, 2, 1] := by
  norm_num [classifyComplaints, classifyFold, classifyStep, effectiveSentiment,
    getSentimentMultiplier, tierOf, ClassAcc.empty, updateGroup, addToGroup,
    rA1, rA2, rA3, fHalf]

theorem classify_example_lookup :
    (classifyComplaints fHalf [rA1, rA2, rA3]).categoryGroups.lookup "A" =
      some gA := by
  norm_num [classifyComplaints, classifyFold, classifyStep, effectiveSentiment,
    getSentimentMultiplier, tierOf, ClassAcc.empty, updateGroup, addToGroup,
    finalizeGroup, CatGroup.init, rA1, rA2, rA3, fHalf, List.lookup, gA]
  decide

theorem classify_example_mem :
    annotate fHalf rA1 ∈ (classifyComplaints fHalf [rA1, rA2, rA3]).processed := by
  have h : (classifyComplaints fHalf [rA1, rA2, rA3]).processed =
      [rA1, rA2, rA3].map (annotate fHalf) := by
    show (classifyFold fHalf ClassAcc.empty [rA1, rA2, rA3]).processed = _
    rw [classifyFold_processed]
    simp [ClassAcc.empty]
  rw [h]; simp

/-- C4: each record's priority weight is fixed by its severity score
(3 below 0.3, 2 in [0.3, 0.6), 1 at or above 0.6); each category group's
`count` is the number of its records, its `totalPriorityScore` the sum of
their weights, and its `averageSentiment` the quotient of the two; and on
severities `[0.1, 0.4, 0.8]` in one category the weights are `[3, 2, 1]`
with total `6` and average `2`. -/
theorem C4_aggregation_correct :
    (∀ (f : Complaint → ℚ) (l : List Complaint),
      (∀ p ∈ (classifyComplaints f l).processed,
        (p.sentimentScore < 3/10 → p.priorityScore = 3) ∧
        (3/10 ≤ p.sentimentScore → p.sentimentScore < 6/10 → p.priorityScore = 2) ∧
        (6/10 ≤ p.sentimentScore → p.priorityScore = 1)) ∧
      (∀ (cat : String) (g : CatGroup),
        (classifyComplaints f l).categoryGroups.lookup cat = some g →
          g.count = (l.filter (fun c => c.category == cat)).length ∧
          g.totalPriorityScore = ((l.filter (fun c => c.category == cat)).map
            (fun c => getSentimentMultiplier (effectiveSentiment f c))).sum ∧
          g.averageSentiment = g.totalPriorityScore / (g.count : ℚ))) ∧
    ((classifyComplaints fHalf [rA1, rA2, rA3]).processed.map
        (fun p => p.priorityScore) = [3, 2, 1] ∧
      (classifyComplaints fHalf [rA1, rA2, rA3]).categoryGroups.lookup "A" =
        some gA ∧
      gA.totalPriorityScore = 6 ∧ gA.averageSentiment = 2) := by
  refine ⟨fun f l => ⟨?_, ?_⟩,
    classify_example_processed, classify_example_lookup, rfl, rfl⟩
  · intro p hp
    have hproc : (classifyComplaints f l).processed = l.map (annotate f) := by
      show (classifyFold f ClassAcc.empty l).processed = _
      rw [classifyFold_processed]; simp [ClassAcc.empty]
    rw [hproc] at hp
    obtain ⟨c, _, rfl⟩ := List.mem_map.mp hp
    dsimp only [annotate]
    refine ⟨fun h1 => ?_, fun h2 h3 => ?_, fun h4 => ?_⟩ <;>
      unfold getSentimentMultiplier
    · rw [if_pos h1]
    · rw [if_neg (not_lt.mpr h2), if_pos h3]
    · rw [if_neg (not_lt.mpr (le_trans (by norm_num) h4)),
        if_neg (not_lt.mpr h4)]
  · intro cat g hg
    rw [classifyComplaints_lookup] at hg
    by_cases he : (l.filter (fun c => c.category == cat)).isEmpty
    · rw [if_pos he] at hg; exact absurd hg (by simp)
    · rw [if_neg he] at hg
      obtain rfl := Option.some_inj.mp hg
      have hcount := extendGroup_count f (l.filter (fun c => c.category == cat))
        CatGroup.init
      have htotal := extendGroup_total f (l.filter (fun c => c.category == cat))
        CatGroup.init
      simp only [finalizeGroup]
      refine ⟨?_, ?_, trivial⟩
      · rw [hcount]; simp [CatGroup.init]
      · rw [htotal]; simp [CatGroup.init]

/-- Witness for C4 at the concrete `[0.1, 0.4, 0.8]` example: instantiates
both universally quantified parts, discharging the lookup and membership
hypotheses at the concrete input. -/
theorem C4_aggregation_correct_witness :
    (gA.count = ([rA1, rA2, rA3].filter (fun c => c.category == "A")).length ∧
      gA.totalPriorityScore = (([rA1, rA2, rA3].filter (fun c => c.category == "A")).map
        (fun c => getSentimentMultiplier (effectiveSentiment fHalf c))).sum ∧
      gA.averageSentiment = gA.totalPriorityScore / (gA.count : ℚ)) ∧
    (annotate fHalf rA1).priorityScore = 3 :=
  ⟨(C4_aggregation_correct.1 fHalf [rA1, rA2, rA3]).2 "A" gA classify_example_lookup,
    ((C4_aggregation_correct.1 fHalf [rA1, rA2, rA3]).1 (annotate fHalf rA1)
      classify_example_mem).1
      (by norm_num [annotate, effectiveSentiment, rA1])⟩

/-! ### Top-category selection -/

/-- The running maximum of the weighted scores, starting from `b` (the
initial `topCategoryScore = 0`). -/
def maxWScore : List (String × CatGroup) → ℚ → ℚ
  | [], b => b
  | p :: rest, b => maxWScore rest (max b (weightedScore p.2))

theorem le_maxWScore : ∀ (gs : List (String × CatGroup)) (b : ℚ),
    b ≤ maxWScore gs b
  | [], _ => le_refl _
  | p :: rest, b =>
    le_trans (le_max_left _ _) (le_maxWScore rest (max b (weightedScore p.2)))

theorem maxWScore_mem : ∀ (gs : List (String × CatGroup)) (b : ℚ)
    (p : String × CatGroup), p ∈ gs → weightedScore p.2 ≤ maxWScore gs b
  | q :: rest, b, p, hp => by
    rcases List.mem_cons.mp hp with h | h
    · subst h
      exact le_trans (le_max_right _ _) (le_maxWScore rest _)
    · exact maxWScore_mem rest _ p h

theorem maxWScore_attained : ∀ (gs : List (String × CatGroup)) (b : ℚ),
    maxWScore gs b = b ∨ ∃ p ∈ gs, maxWScore gs b = weightedScore p.2
  | [], b => Or.inl rfl
  | q :: rest, b => by
    rcases maxWScore_attained rest (max b (weightedScore q.2)) with h | ⟨p, hp, hval⟩
    · rcases max_cases b (weightedScore q.2) with ⟨hm, _⟩ | ⟨hm, _⟩
      · exact Or.inl (by rw [maxWScore, h, hm])
      · exact Or.inr ⟨q, List.mem_cons_self _ _, by rw [maxWScore, h, hm]⟩
    · exact Or.inr ⟨p, List.mem_cons_of_mem _ hp, by rw [maxWScore, hval]⟩

/-- What the strict-improvement loop computes: if any score beats the
running best `b`, the first entry attaining the overall maximum wins;
otherwise the incoming candidate is kept.  (This is the "ties go to the
first-enumerated category" rule: an entry merely equal to the best so far
does not displace it.) -/
theorem selectTop_eq_find : ∀ (gs : List (String × CatGroup)) (b : ℚ)
    (cur : Option String),
    selectTop gs b cur =
      if b < maxWScore gs b then
        (gs.find? (fun p => maxWScore gs b ≤ weightedScore p.2)).map Prod.fst
      else cur
  | [], b, cur => by simp [selectTop, maxWScore]
  | (c, g) :: rest, b, cur => by
    have hM : maxWScore ((c, g) :: rest) b =
        maxWScore rest (max b (weightedScore g)) := rfl
    by_cases hbw : b < weightedScore g
    · have hmax : max b (weightedScore g) = weightedScore g :=
        max_eq_right (le_of_lt hbw)
      have hMw : maxWScore ((c, g) :: rest) b = maxWScore rest (weightedScore g) := by
        rw [hM, hmax]
      have hble : b < maxWScore ((c, g) :: rest) b :=
        lt_of_lt_of_le hbw (by rw [hMw]; exact le_maxWScore _ _)
      rw [selectTop, if_pos hbw, selectTop_eq_find rest (weightedScore g) (some c),
        if_pos hble]
      by_cases hw : weightedScore g < maxWScore rest (weightedScore g)
      · rw [if_pos hw]
        have hfind : List.find? (fun p => maxWScore ((c, g) :: rest) b ≤ weightedScore p.2)
            ((c, g) :: rest) =
            List.find? (fun p => maxWScore ((c, g) :: rest) b ≤ weightedScore p.2) rest := by
          rw [List.find?_cons]
          have : ¬ (maxWScore ((c, g) :: rest) b ≤ weightedScore g) := by
            rw [hMw]; exact not_le.mpr hw
          simp [this]
        rw [hfind, hMw]
      · rw [if_neg hw]
        have heq : maxWScore ((c, g) :: rest) b = weightedScore g :=
          le_antisymm (by rw [hMw]; exact not_lt.mp hw)
            (by rw [hMw]; exact le_maxWScore _ _)
        have hfind : List.find? (fun p => maxWScore ((c, g) :: rest) b ≤ weightedScore p.2)
            ((c, g) :: rest) = some (c, g) := by
          rw [List.find?_cons]
          have : maxWScore ((c, g) :: rest) b ≤ weightedScore g := le_of_eq heq
          simp [this]
        rw [hfind]; rfl
    · have hmax : max b (weightedScore g) = b := max_eq_left (not_lt.mp hbw)
      have hMw : maxWScore ((c, g) :: rest) b = maxWScore rest b := by rw [hM, hmax]
      rw [selectTop, if_neg hbw, selectTop_eq_find rest b cur, hMw]
      by_cases hb : b < maxWScore rest b
      · rw [if_pos hb, if_pos hb]
        have hfind : List.find? (fun p => maxWScore rest b ≤ weightedScore p.2)
            ((c, g) :: rest) =
            List.find? (fun p => maxWScore rest b ≤ weightedScore p.2) rest := by
          rw [List.find?_cons]
          have : ¬ (maxWScore rest b ≤ weightedScore g) := by
            exact not_le.mpr (lt_of_le_of_lt (not_lt.mp hbw) hb)
          simp [this]
        rw [hfind]
      · rw [if_neg hb, if_neg hb]

/-- Every weight the policy assigns is at least 1. -/
theorem one_le_multiplier (s : ℚ) : 1 ≤ getSentimentMultiplier s := by
  unfold getSentimentMultiplier
  split
  · norm_num
  · split <;> norm_num

/-- Where entries of an updated group map come from. -/
theorem mem_updateGroup : ∀ (gs : List (String × CatGroup)) (cat : String)
    (upd : CatGroup → CatGroup) (q : String × CatGroup),
    q ∈ updateGroup gs cat upd →
      q ∈ gs ∨ ∃ g₀, (g₀ = CatGroup.init ∨ (cat, g₀) ∈ gs) ∧ q = (cat, upd g₀)
  | [], cat, upd, q, hq => by
    simp [updateGroup] at hq
    exact Or.inr ⟨CatGroup.init, Or.inl rfl, hq⟩
  | (c, g) :: rest, cat, upd, q, hq => by
    by_cases hc : c = cat
    · subst hc
      rw [updateGroup, if_pos rfl] at hq
      rcases List.mem_cons.mp hq with h | h
      · exact Or.inr ⟨g, Or.inr (List.mem_cons_self _ _), h⟩
      · exact Or.inl (List.mem_cons_of_mem _ h)
    · rw [updateGroup, if_neg hc] at hq
      rcases List.mem_cons.mp hq with h | h
      · exact Or.inl (h ▸ List.mem_cons_self _ _)
      · rcases mem_updateGroup rest cat upd q h with h' | ⟨g₀, hg₀, hq'⟩
        · exact Or.inl (List.mem_cons_of_mem _ h')
        · exact Or.inr ⟨g₀, hg₀.imp id (List.mem_cons_of_mem _), hq'⟩

/-- The loop invariant giving score positivity: every group present has at
least one record, and its total priority score is at least its count. -/
def GroupsPos (gs : List (String × CatGroup)) : Prop :=
  ∀ p ∈ gs, 1 ≤ p.2.count ∧ (p.2.count : ℚ) ≤ p.2.totalPriorityScore

theorem groupsPos_updateGroup (gs : List (String × CatGroup)) (cat : String)
    (c : Complaint) (s m : ℚ) (hm : 1 ≤ m) (h : GroupsPos gs) :
    GroupsPos (updateGroup gs cat (addToGroup c s m)) := by
  intro q hq
  rcases mem_updateGroup gs cat _ q hq with h' | ⟨g₀, hg₀, rfl⟩
  · exact h q h'
  · have hbase : g₀.count = 0 ∧ g₀.totalPriorityScore = 0 ∨
        (1 ≤ g₀.count ∧ (g₀.count : ℚ) ≤ g₀.totalPriorityScore) := by
      rcases hg₀ with rfl | hmem
      · exact Or.inl ⟨rfl, rfl⟩
      · exact Or.inr (h (cat, g₀) hmem)
    constructor
    · simp [addToGroup]
    · simp only [addToGroup]
      rcases hbase with ⟨h1, h2⟩ | ⟨_, h2⟩
      · rw [h1, h2]; push_cast; linarith
      · push_cast; push_cast at h2; linarith

theorem classifyFold_groupsPos (f : Complaint → ℚ) :
    ∀ (l : List Complaint) (acc : ClassAcc), GroupsPos acc.categoryGroups →
      GroupsPos (classifyFold f acc l).categoryGroups
  | [], acc, h => h
  | c :: cs, acc, h => by
    rw [classifyFold]
    exact classifyFold_groupsPos f cs _
      (groupsPos_updateGroup _ _ _ _ _ (one_le_multiplier _) h)

/-- For a nonzero count, the finalized group's weighted score is its total
priority score. -/
theorem weightedScore_finalize (g : CatGroup) (h : 1 ≤ g.count) :
    weightedScore (finalizeGroup g) = g.totalPriorityScore := by
  have hne : (g.count : ℚ) ≠ 0 := by
    have : g.count ≠ 0 := by omega
    exact_mod_cast this
  simp [weightedScore, finalizeGroup]
  field_simp

/-- Every group `classifyComplaints` returns has weighted score ≥ 1. -/
theorem classifyComplaints_score_pos (f : Complaint → ℚ) (l : List Complaint) :
    ∀ q ∈ (classifyComplaints f l).categoryGroups, 1 ≤ weightedScore q.2 := by
  intro q hq
  have hq' : q ∈ (classifyFold f ClassAcc.empty l).categoryGroups.map
      (fun p => (p.1, finalizeGroup p.2)) := hq
  obtain ⟨p, hp, rfl⟩ := List.mem_map.mp hq'
  have hpos := classifyFold_groupsPos f l ClassAcc.empty (by intro q hq; simp [ClassAcc.empty] at hq) p hp
  rw [weightedScore_finalize p.2 hpos.1]
  calc (1 : ℚ) ≤ (p.2.count : ℚ) := by exact_mod_cast hpos.1
    _ ≤ p.2.totalPriorityScore := hpos.2

/-- `updateGroup` never returns an empty map. -/
theorem updateGroup_ne_nil (gs : List (String × CatGroup)) (cat : String)
    (upd : CatGroup → CatGroup) : updateGroup gs cat upd ≠ [] := by
  cases gs with
  | nil => simp [updateGroup]
  | cons p rest =>
    obtain ⟨c, g⟩ := p
    by_cases h : c = cat <;> simp [updateGroup, h]

theorem classifyFold_groups_ne_nil (f : Complaint → ℚ) :
    ∀ (l : List Complaint) (acc : ClassAcc), acc.categoryGroups ≠ [] →
      (classifyFold f acc l).categoryGroups ≠ []
  | [], acc, h => h
  | c :: cs, acc, h => by
    rw [classifyFold]
    exact classifyFold_groups_ne_nil f cs _ (by simp [classifyStep, updateGroup_ne_nil])

theorem classifyComplaints_groups_ne_nil (f : Complaint → ℚ) (l : List Complaint)
    (h : l ≠ []) : (classifyComplaints f l).categoryGroups ≠ [] := by
  obtain ⟨c, cs, rfl⟩ := List.exists_cons_of_ne_nil h
  show ((classifyFold f ClassAcc.empty (c :: cs)).categoryGroups.map
      (fun p => (p.1, finalizeGroup p.2))) ≠ []
  simp only [ne_eq, List.map_eq_nil_iff]
  rw [classifyFold]
  exact classifyFold_groups_ne_nil f cs _ (by simp [classifyStep, ClassAcc.empty, updateGroup_ne_nil])

/-- The top category characterized, for a nonempty input: the first group
(in insertion order) whose weighted score attains the maximum. -/
theorem topCategory_eq_find (f : Complaint → ℚ) (l : List Complaint) (h : l ≠ []) :
    (classifyComplaints f l).topCategory =
      ((classifyComplaints f l).categoryGroups.find?
        (fun p => maxWScore (classifyComplaints f l).categoryGroups 0 ≤
          weightedScore p.2)).map Prod.fst := by
  have hne := classifyComplaints_groups_ne_nil f l h
  obtain ⟨q, hq⟩ := List.exists_mem_of_ne_nil _ hne
  have h1 : 1 ≤ weightedScore q.2 := classifyComplaints_score_pos f l q hq
  have hlt : (0 : ℚ) < maxWScore (classifyComplaints f l).categoryGroups 0 :=
    lt_of_lt_of_le (by norm_num)
      (le_trans h1 (maxWScore_mem _ 0 q hq))
  show selectTop (classifyComplaints f l).categoryGroups 0 none = _
  rw [selectTop_eq_find, if_pos hlt]

/-- A category whose weighted score strictly beats every other category's is
selected. -/
theorem topCategory_strict_winner (f : Complaint → ℚ) (l : List Complaint)
    (cat : String) (g : CatGroup)
    (hmem : (cat, g) ∈ (classifyComplaints f l).categoryGroups)
    (hstrict : ∀ q ∈ (classifyComplaints f l).categoryGroups,
      q.1 ≠ cat → weightedScore q.2 < weightedScore g) :
    (classifyComplaints f l).topCategory = some cat := by
  have hlne : l ≠ [] := by
    rintro rfl
    simp [classifyComplaints, classifyFold, ClassAcc.empty] at hmem
  rw [topCategory_eq_find f l hlne]
  have h1 : 1 ≤ weightedScore g := classifyComplaints_score_pos f l (cat, g) hmem
  have hlt : (0 : ℚ) < maxWScore (classifyComplaints f l).categoryGroups 0 :=
    lt_of_lt_of_le (by norm_num)
      (le_trans h1 (maxWScore_mem _ 0 (cat, g) hmem))
  rcases maxWScore_attained (classifyComplaints f l).categoryGroups 0 with h0 | ⟨p, hp, hMp⟩
  · rw [h0] at hlt; exact absurd hlt (lt_irrefl 0)
  · have hsome : ((classifyComplaints f l).categoryGroups.find?
        (fun p => maxWScore (classifyComplaints f l).categoryGroups 0 ≤
          weightedScore p.2)).isSome := by
      refine List.find?_isSome.mpr ⟨p, hp, ?_⟩
      simp [hMp]
    obtain ⟨r, hr⟩ := Option.isSome_iff_exists.mp hsome
    have hrmem := List.mem_of_find?_eq_some hr
    have hrpred : maxWScore (classifyComplaints f l).categoryGroups 0 ≤
        weightedScore r.2 := by
      have := List.find?_some hr
      exact of_decide_eq_true this
    have hrcat : r.1 = cat := by
      by_contra hne'
      have hlt' := hstrict r hrmem hne'
      have hge : weightedScore g ≤ maxWScore (classifyComplaints f l).categoryGroups 0 :=
        maxWScore_mem _ 0 (cat, g) hmem
      linarith
    rw [hr]
    simp [hrcat]

/-! ### Concrete top-category example (A: 2 records, weight 3 each;
B: 5 records, weight 1 each) -/

def bA1 : Complaint :=
  { id := 21, category := "A", ipfs_hash := "", ai_sentiment := some (1/10),
    similarity_score := none, created_at := 1 }

def bA2 : Complaint :=
  { id := 22, category := "A", ipfs_hash := "", ai_sentiment := some (1/10),
    similarity_score := none, created_at := 2 }

def bB1 : Complaint :=
  { id := 23, category := "B", ipfs_hash := "", ai_sentiment := some (8/10),
    similarity_score := none, created_at := 3 }

def bB2 : Complaint :=
  { id := 24, category := "B", ipfs_hash := "", ai_sentiment := some (8/10),
    similarity_score := none, created_at := 4 }

def bB3 : Complaint :=
  { id := 25, category := "B", ipfs_hash := "", ai_sentiment := some (8/10),
    similarity_score := none, created_at := 5 }

def bB4 : Complaint :=
  { id := 26, category := "B", ipfs_hash := "", ai_sentiment := some (8/10),
    similarity_score := none, created_at := 6 }

def bB5 : Complaint :=
  { id := 27, category := "B", ipfs_hash := "", ai_sentiment := some (8/10),
    similarity_score := none, created_at := 7 }

def complaintsAB : List Complaint := [bA1, bA2, bB1, bB2, bB3, bB4, bB5]

/-- Category "A"'s group: 2 records of weight 3, weighted score 6. -/
def gA2 : CatGroup :=
  { complaints := [bA1, bA2], count := 2, totalPriorityScore := 6,
    averageSentiment := 3, critical := 2, high := 0, normal := 0 }

/-- Category "B"'s group: 5 records of weight 1, weighted score 5. -/
def gB5 : CatGroup :=
  { complaints := [bB1, bB2, bB3, bB4, bB5], count := 5, totalPriorityScore := 5,
    averageSentiment := 1, critical := 0, high := 0, normal := 5 }

theorem classify_exampleAB_groups :
    (classifyComplaints fHalf complaintsAB).categoryGroups =
      [("A", gA2), ("B", gB5)] := by
  norm_num [classifyComplaints, classifyFold, classifyStep, effectiveSentiment,
    getSentimentMultiplier, tierOf, ClassAcc.empty, updateGroup, addToGroup,
    finalizeGroup, CatGroup.init, complaintsAB, bA1, bA2, bB1, bB2, bB3, bB4,
    bB5, fHalf, gA2, gB5]
  simp
  norm_num

/-- C5: the category with the strictly highest `weightedScore =
count × averageSeverity` is selected; in general the selection is the first
group (in enumeration order) attaining the maximal weighted score, so ties
go to the first-enumerated category; and in the concrete example, "A"
(count 2, average weight 3, score 6) beats "B" (count 5, average weight 1,
score 5). -/
theorem C5_top_category_selection :
    (∀ (f : Complaint → ℚ) (l : List Complaint) (cat : String) (g : CatGroup),
      (cat, g) ∈ (classifyComplaints f l).categoryGroups →
      (∀ q ∈ (classifyComplaints f l).categoryGroups,
        q.1 ≠ cat → weightedScore q.2 < weightedScore g) →
      (classifyComplaints f l).topCategory = some cat) ∧
    (∀ (f : Complaint → ℚ) (l : List Complaint), l ≠ [] →
      (classifyComplaints f l).topCategory =
        ((classifyComplaints f l).categoryGroups.find?
          (fun p => maxWScore (classifyComplaints f l).categoryGroups 0 ≤
            weightedScore p.2)).map Prod.fst) ∧
    (classifyComplaints fHalf complaintsAB).topCategory = some "A" := by
  refine ⟨topCategory_strict_winner, topCategory_eq_find, ?_⟩
  apply topCategory_strict_winner fHalf complaintsAB "A" gA2
  · rw [classify_exampleAB_groups]; simp
  · rw [classify_exampleAB_groups]
    intro q hq hne
    rcases List.mem_cons.mp hq with rfl | hq'
    · exact absurd rfl hne
    · rcases List.mem_cons.mp hq' with rfl | hq''
      · norm_num [weightedScore, gA2, gB5]
      · simp at hq''

/-- Witness for C5: both universally quantified parts applied at the
concrete two-category example, discharging the membership, strict-dominance
and nonemptiness hypotheses there. -/
theorem C5_top_category_selection_witness :
    (classifyComplaints fHalf complaintsAB).topCategory = some "A" ∧
    (classifyComplaints fHalf complaintsAB).topCategory =
      ((classifyComplaints fHalf complaintsAB).categoryGroups.find?
        (fun p => maxWScore (classifyComplaints fHalf complaintsAB).categoryGroups 0 ≤
          weightedScore p.2)).map Prod.fst :=
  ⟨C5_top_category_selection.1 fHalf complaintsAB "A" gA2
      (by rw [classify_exampleAB_groups]; simp)
      (by
        rw [classify_exampleAB_groups]
        intro q hq hne
        rcases List.mem_cons.mp hq with rfl | hq'
        · exact absurd rfl hne
        · rcases List.mem_cons.mp hq' with rfl | hq''
          · norm_num [weightedScore, gA2, gB5]
          · simp at hq''),
    C5_top_category_selection.2.1 fHalf complaintsAB (by simp [complaintsAB])⟩

/-! ## The database and `createBlock` (blockService.js, sqlite.js)

Tables are lists of typed rows.  `AUTOINCREMENT` / `insertId` is `max id + 1`.
The source's JSON-serialized stats columns (`category_stats`,
`sentiment_stats`) are kept as the structured values that get serialized;
`JSON.stringify` is modelled separately (`categoryStatsJson` below) where a
claim talks about the serialized bytes.  The source wraps none of its
`query` calls in a transaction (sqlite3 autocommits each statement), so
each insert is an individually committed state change. -/

/-- A row of `block_metadata` (sqlite.js), restricted to the columns
`createBlock` writes. -/
structure BlockRow where
  id : Nat
  block_number : Nat
  merkle_root : HashVal
  complaint_count : Nat
  total_priority_score : ℚ
  top_category : Option String
  category_stats : List (String × CatGroup)
  sentiment_stats : SentimentLists
  created_by_admin_id : Nat
  created_at : Nat
  ipfs_metadata_hash : String
deriving DecidableEq, Repr

/-- A row of `complaint_blocks` (sqlite.js).  Note the schema's columns:
`id, block_id, complaint_id, complaint_hash, inclusion_order, created_at` —
there is **no** `block_number` column. -/
structure MembershipRow where
  block_id : Nat
  complaint_id : Nat
  complaint_hash : HashVal
  inclusion_order : Nat
deriving DecidableEq, Repr

/-- The column names of `complaint_blocks` as created by sqlite.js. -/
def complaintBlocksColumns : List String :=
  ["id", "block_id", "complaint_id", "complaint_hash", "inclusion_order",
   "created_at"]

/-- A row of `block_creation_log` (sqlite.js), restricted to the columns
the claims about writes need. -/
structure LogRow where
  admin_id : Nat
  block_id : Nat
  complaints_processed : Nat
  merkle_tree_depth : Nat
deriving DecidableEq, Repr

/-- The database state: the four tables the block builder touches. -/
structure DBState where
  complaints : List Complaint
  block_metadata : List BlockRow
  complaint_blocks : List MembershipRow
  block_creation_log : List LogRow
deriving DecidableEq, Repr

def DBState.empty : DBState := ⟨[], [], [], []⟩

/-- `SELECT MAX(created_at) FROM block_metadata`, with the
`|| '1970-01-01 00:00:00'` fallback (the epoch is 0 here). -/
def lastBlockTime (s : DBState) : Nat :=
  s.block_metadata.foldl (fun a b => max a b.created_at) 0

/-- The `WHERE` clause of the unprocessed-complaints query:
`created_at > lastBlockTime AND id NOT IN (SELECT complaint_id FROM
complaint_blocks)`. -/
def isUnprocessed (s : DBState) (c : Complaint) : Bool :=
  decide (lastBlockTime s < c.created_at) &&
    !(s.complaint_blocks.any (fun m => m.complaint_id == c.id))

/-- Insertion step of a stable sort by `created_at` (SQLite's `ORDER BY
c.created_at ASC`; the order among equal timestamps is unspecified in
SQLite, so any total refinement is faithful). -/
def insertByTime (c : Complaint) : List Complaint → List Complaint
  | [] => [c]
  | d :: ds =>
    if c.created_at < d.created_at then c :: d :: ds else d :: insertByTime c ds

def sortByTime (l : List Complaint) : List Complaint := l.foldr insertByTime []

/-- `getUnprocessedComplaints()` (blockService.js): complaints created after
the latest block and not yet in any `complaint_blocks` row, ordered by
creation time. -/
def getUnprocessedComplaints (s : DBState) : List Complaint :=
  sortByTime (s.complaints.filter (isUnprocessed s))

/-- The `UPDATE complaints SET ai_sentiment = ?, similarity_score = ?`
writes `classifyComplaints` performs for each fetched complaint whose
`ai_sentiment` is null.  The similarity the classifier reports is modelled
as 0 (its value never matters to any claim). -/
def classifyUpdates (f : Complaint → ℚ) (sel : List Complaint) (s : DBState) :
    DBState :=
  { s with complaints := s.complaints.map (fun c =>
      if sel.any (fun d => d.id == c.id && d.ai_sentiment.isNone) then
        { c with ai_sentiment := some (effectiveSentiment f c),
                 similarity_score := some 0 }
      else c) }

/-- The membership rows the `for` loop of step 7 inserts, starting at
inclusion order `i`. -/
def membershipRows (blockId : Nat) : Nat → List ProcessedComplaint →
    List MembershipRow
  | _, [] => []
  | i, p :: ps =>
    { block_id := blockId, complaint_id := p.complaint.id,
      complaint_hash := hashComplaint p.complaint, inclusion_order := i } ::
      membershipRows blockId (i + 1) ps

/-- The membership insert loop, one autocommitted `INSERT` per row.
`failAt = some k` injects a persistence failure at the `k`-th insert: the
statement throws and the loop aborts, leaving the rows inserted so far
committed (the source opens no transaction and has no rollback). -/
def insertMemberships (blockId : Nat) (failAt : Option Nat) :
    Nat → List ProcessedComplaint → DBState → Option String × DBState
  | _, [], s => (none, s)
  | i, p :: ps, s =>
    if failAt = some i then (some "SQLITE_ERROR: membership insert failed", s)
    else
      insertMemberships blockId failAt (i + 1) ps
        { s with complaint_blocks := s.complaint_blocks ++
            [{ block_id := blockId, complaint_id := p.complaint.id,
               complaint_hash := hashComplaint p.complaint,
               inclusion_order := i }] }

/-- What `createBlock` resolves with on success. -/
structure BlockResult where
  blockId : Nat
  blockNumber : Nat
  merkleRoot : HashVal
  complaintCount : Nat
  topCategory : Option String
  totalPriorityScore : ℚ
deriving DecidableEq, Repr

/-- One `createBlock` invocation: a thrown error (with the state as left
behind) or a success. -/
structure RunOutcome where
  error : Option String
  state : DBState
  result : Option BlockResult
deriving DecidableEq, Repr

/-- `SELECT COALESCE(MAX(block_number), 0) + 1 FROM block_metadata`. -/
def nextBlockNumber (s : DBState) : Nat :=
  (s.block_metadata.map (fun b => b.block_number)).foldl max 0 + 1

/-- The `insertId` SQLite reports for the block insert: the rowid, which
`AUTOINCREMENT` assigns as one past the largest existing id. -/
def nextBlockId (s : DBState) : Nat :=
  (s.block_metadata.map (fun b => b.id)).foldl max 0 + 1

/-- `createBlock(adminId)` (blockService.js).  Parameters beyond the admin
id model the ambient collaborators: `f` is the deterministic classifier,
`now` the `CURRENT_TIMESTAMP` of the insert, `ipfsHash` the best-effort
IPFS metadata reference (`''` when the upload failed), and `failAt` injects
a persistence failure into the membership-insert loop (`none` = no
failure). -/
def createBlock (f : Complaint → ℚ) (adminId now : Nat) (ipfsHash : String)
    (failAt : Option Nat) (s : DBState) : RunOutcome :=
  let sel := getUnprocessedComplaints s
  if sel.isEmpty then
    { error := some "No unprocessed complaints found. Cannot create block.",
      state := s, result := none }
  else
    let s1 := classifyUpdates f sel s
    let cr := classifyComplaints f sel
    match buildMerkleTree (cr.processed.map (fun p => p.complaint)) with
    | none =>
      { error := some "No complaints provided for Merkle tree construction",
        state := s1, result := none }
    | some tree =>
      if validateMerkleTree tree then
        let blockNumber := nextBlockNumber s1
        let blockId := nextBlockId s1
        let row : BlockRow :=
          { id := blockId, block_number := blockNumber,
            merkle_root := tree.root, complaint_count := sel.length,
            total_priority_score := cr.totalPriorityScore,
            top_category := cr.topCategory,
            category_stats := cr.categoryGroups,
            sentiment_stats := cr.sentimentStats,
            created_by_admin_id := adminId, created_at := now,
            ipfs_metadata_hash := ipfsHash }
        let s2 := { s1 with block_metadata := s1.block_metadata ++ [row] }
        match insertMemberships blockId failAt 0 cr.processed s2 with
        | (some e, s3) => { error := some e, state := s3, result := none }
        | (none, s3) =>
          let s4 := { s3 with block_creation_log := s3.block_creation_log ++
              [{ admin_id := adminId, block_id := blockId,
                 complaints_processed := sel.length,
                 merkle_tree_depth := tree.depth }] }
          { error := none, state := s4,
            result := some ({ blockId := blockId,
                              blockNumber := blockNumber,
                              merkleRoot := tree.root,
                              complaintCount := sel.length,
                              topCategory := cr.topCategory,
                              totalPriorityScore := cr.totalPriorityScore } :
                            BlockResult) }
      else
        { error := some "Invalid Merkle tree generated", state := s1,
          result := none }

/-! ## Preview (`getBlockCreationPreview`) -/

/-- The object `getBlockCreationPreview` resolves with when there are
unprocessed complaints.  `categoryStats` maps each category to its count
only; `sentimentStats`/`sentimentBreakdown` are the three tier counts
(critical, high, normal); `categoryBreakdown` carries
(category, count, priorityScore, averageSentiment); `complaintsList` the
(id, title-omitted) summaries (id, category, created_at, stored
sentiment). -/
structure PreviewResult where
  complaintCount : Nat
  topCategory : Option String
  totalPriorityScore : ℚ
  categoryStats : List (String × Nat)
  sentimentStats : Nat × Nat × Nat
  categoryBreakdown : List (String × Nat × ℚ × ℚ)
  sentimentBreakdown : Nat × Nat × Nat
  complaintsList : List (Nat × String × Nat × Option ℚ)
deriving DecidableEq, Repr

/-- `getBlockCreationPreview()` (blockService.js): fetch + classify only
(classification still persists freshly computed scores, hence the state in
the result); `none` models the `hasComplaints: false` early return. -/
def getBlockCreationPreview (f : Complaint → ℚ) (s : DBState) :
    Option PreviewResult × DBState :=
  let sel := getUnprocessedComplaints s
  if sel.isEmpty then (none, s)
  else
    let cr := classifyComplaints f sel
    (some { complaintCount := sel.length,
            topCategory := cr.topCategory,
            totalPriorityScore := cr.totalPriorityScore,
            categoryStats := cr.categoryGroups.map (fun p => (p.1, p.2.count)),
            sentimentStats := (cr.sentimentStats.critical.length,
              cr.sentimentStats.high.length, cr.sentimentStats.normal.length),
            categoryBreakdown := cr.categoryGroups.map (fun p =>
              (p.1, p.2.count, p.2.totalPriorityScore, p.2.averageSentiment)),
            sentimentBreakdown := (cr.sentimentStats.critical.length,
              cr.sentimentStats.high.length, cr.sentimentStats.normal.length),
            complaintsList := sel.map (fun c =>
              (c.id, c.category, c.created_at, c.ai_sentiment)) },
      classifyUpdates f sel s)

/-! ## JSON serialization (`JSON.stringify` of the stats wrote into the
Batch row, versus the preview's stats objects)

`Json` values model the serialized text up to the (injective, for these
values) rendering `JSON.stringify` applies with insertion-ordered keys;
two distinct `Json` values render to distinct byte strings. -/

inductive Json where
  | null
  | str (s : String)
  | num (q : ℚ)
  | arr (elems : List Json)
  | obj (fields : List (String × Json))

/-- A complaint row as `JSON.stringify` sees it (the fields carried by this
embedding, in column order). -/
def complaintJson (c : Complaint) : Json :=
  .obj [("id", .num c.id),
        ("category", .str c.category),
        ("ipfs_hash", .str c.ipfs_hash),
        ("ai_sentiment", match c.ai_sentiment with
          | none => .null
          | some q => .num q),
        ("similarity_score", match c.similarity_score with
          | none => .null
          | some q => .num q),
        ("created_at", .num c.created_at)]

/-- One category group as serialized into the Batch row's `category_stats`
column (key insertion order from blockService.js). -/
def catGroupJson (g : CatGroup) : Json :=
  .obj [("complaints", .arr (g.complaints.map complaintJson)),
        ("count", .num g.count),
        ("totalPriorityScore", .num g.totalPriorityScore),
        ("averageSentiment", .num g.averageSentiment),
        ("sentimentBreakdown", .obj [("critical", .num g.critical),
          ("high", .num g.high), ("normal", .num g.normal)])]

/-- `JSON.stringify(classificationResults.categoryGroups)` — what
`createBlock` persists in `category_stats`. -/
def categoryStatsJson (gs : List (String × CatGroup)) : Json :=
  .obj (gs.map (fun p => (p.1, catGroupJson p.2)))

/-- The preview's `categoryStats` object `{category: count}`. -/
def previewCategoryStatsJson (cs : List (String × Nat)) : Json :=
  .obj (cs.map (fun p => (p.1, .num p.2)))

/-- `JSON.stringify(classificationResults.sentimentStats)` — what
`createBlock` persists in `sentiment_stats`: the three tier arrays of
complaint objects. -/
def sentimentStatsJson (st : SentimentLists) : Json :=
  .obj [("critical", .arr (st.critical.map complaintJson)),
        ("high", .arr (st.high.map complaintJson)),
        ("normal", .arr (st.normal.map complaintJson))]

/-- The preview's `sentimentStats` object: the three tier counts. -/
def previewSentimentStatsJson (st : Nat × Nat × Nat) : Json :=
  .obj [("critical", .num st.1), ("high", .num st.2.1),
        ("normal", .num st.2.2)]

/-! ## Block detail read path (`getBlockDetails`)

blockService.js defines `getBlockDetails` twice in the same class; the
second definition (lines 520–581) overrides the first, so it is the one
`require`-ers get.  Its member query is

    SELECT cb.*, c.title, ... FROM complaint_blocks cb
    INNER JOIN complaints c ON cb.complaint_id = c.id
    WHERE cb.block_number = ?
    ORDER BY cb.inclusion_order ASC

which filters `complaint_blocks` on a column `block_number` that the
schema (sqlite.js) does not define — memberships are keyed by `block_id`.
SQLite rejects a statement referencing an unknown column with
`SQLITE_ERROR: no such column`, the `catch` wraps and rethrows, so the
member query is modelled as: succeed with the join only if the referenced
column exists in the schema, otherwise fail.  The success branch is dead
code under the actual schema constant `complaintBlocksColumns`. -/

/-- What a successful detail fetch would return: the block row and its
member rows, each joined with its complaint. -/
structure BlockDetail where
  block : BlockRow
  members : List (MembershipRow × Complaint)
deriving DecidableEq, Repr

/-- Sort membership rows by `inclusion_order` (`ORDER BY inclusion_order
ASC`). -/
def insertByOrder (m : MembershipRow × Complaint) :
    List (MembershipRow × Complaint) → List (MembershipRow × Complaint)
  | [] => [m]
  | n :: ns =>
    if m.1.inclusion_order < n.1.inclusion_order then m :: n :: ns
    else n :: insertByOrder m ns

def sortByOrder (l : List (MembershipRow × Complaint)) :
    List (MembershipRow × Complaint) := l.foldr insertByOrder []

/-- `getBlockDetails(blockNumber)` (the effective, second definition in
blockService.js). -/
def getBlockDetails (s : DBState) (blockNumber : Nat) :
    Except String BlockDetail :=
  match s.block_metadata.find? (fun b => b.block_number == blockNumber) with
  | none =>
    .error ("Failed to fetch block details: Block " ++ toString blockNumber ++
      " not found")
  | some b =>
    if "block_number" ∈ complaintBlocksColumns then
      -- dead branch: the schema has no such column
      .ok { block := b,
            members := sortByOrder ((s.complaint_blocks.filterMap (fun m =>
              (s.complaints.find? (fun c => c.id == m.complaint_id)).map
                (fun c => (m, c))))) }
    else
      .error ("Failed to fetch block details: SQLITE_ERROR: no such column: " ++
        "cb.block_number")

/-! ## Interleaving runs with record arrivals -/

/-- One externally visible step: either the submission path inserts a new
complaint (`AUTOINCREMENT` assigns the next id), or an admin triggers one
`createBlock` run (successful or not — `failAt` injects a membership-insert
failure). -/
inductive Step where
  | arrive (category ipfs : String) (ai : Option ℚ) (sim : Option ℚ)
      (createdAt : Nat)
  | createRun (adminId now : Nat) (ipfsHash : String) (failAt : Option Nat)

def applyStep (f : Complaint → ℚ) (s : DBState) : Step → DBState
  | .arrive cat ipfs ai sim t =>
    { s with complaints := s.complaints ++
        [{ id := (s.complaints.map (fun c => c.id)).foldl max 0 + 1,
           category := cat, ipfs_hash := ipfs, ai_sentiment := ai,
           similarity_score := sim, created_at := t }] }
  | .createRun adminId now ipfsHash failAt =>
    (createBlock f adminId now ipfsHash failAt s).state

def runSteps (f : Complaint → ℚ) : DBState → List Step → DBState
  | s, [] => s
  | s, st :: sts => runSteps f (applyStep f s st) sts

/-! ### Lemmas: the membership insert loop -/

/-- Without failure injection, the loop inserts exactly the membership rows
in order. -/
theorem insertMemberships_none (blockId : Nat) :
    ∀ (ps : List ProcessedComplaint) (i : Nat) (s : DBState),
      insertMemberships blockId none i ps s =
        (none, { s with complaint_blocks :=
          s.complaint_blocks ++ membershipRows blockId i ps })
  | [], i, s => by simp [insertMemberships, membershipRows]
  | p :: ps, i, s => by
    rw [insertMemberships]
    simp only [reduceCtorEq, if_false]
    rw [insertMemberships_none blockId ps (i + 1)]
    simp [membershipRows]

/-- The loop never touches `block_metadata`, `block_creation_log` or
`complaints`, whether or not it fails. -/
theorem insertMemberships_other_tables (blockId : Nat) (failAt : Option Nat) :
    ∀ (ps : List ProcessedComplaint) (i : Nat) (s : DBState),
      ((insertMemberships blockId failAt i ps s).2.block_metadata =
        s.block_metadata) ∧
      ((insertMemberships blockId failAt i ps s).2.block_creation_log =
        s.block_creation_log) ∧
      ((insertMemberships blockId failAt i ps s).2.complaints = s.complaints)
  | [], i, s => by simp [insertMemberships]
  | p :: ps, i, s => by
    rw [insertMemberships]
    by_cases h : failAt = some i
    · simp [h]
    · simp only [h, if_false]
      exact insertMemberships_other_tables blockId failAt ps (i + 1) _

/-- Whether or not the loop fails, the membership table only grows by rows
with the given block id whose complaint ids come from the processed list. -/
theorem insertMemberships_shape (blockId : Nat) (failAt : Option Nat) :
    ∀ (ps : List ProcessedComplaint) (i : Nat) (s : DBState),
      ∃ new, (insertMemberships blockId failAt i ps s).2.complaint_blocks =
          s.complaint_blocks ++ new ∧
        ∀ m ∈ new, m.block_id = blockId ∧
          m.complaint_id ∈ ps.map (fun p => p.complaint.id)
  | [], i, s => ⟨[], by simp [insertMemberships]⟩
  | p :: ps, i, s => by
    rw [insertMemberships]
    by_cases h : failAt = some i
    · exact ⟨[], by simp [h]⟩
    · simp only [h, if_false]
      obtain ⟨new, hcb, hmem⟩ := insertMemberships_shape blockId failAt ps (i + 1)
        { s with complaint_blocks := s.complaint_blocks ++
            [{ block_id := blockId, complaint_id := p.complaint.id,
               complaint_hash := hashComplaint p.complaint,
               inclusion_order := i }] }
      refine ⟨{ block_id := blockId, complaint_id := p.complaint.id,
                complaint_hash := hashComplaint p.complaint,
                inclusion_order := i } :: new, ?_, ?_⟩
      · simpa using hcb
      · intro m hm
        rcases List.mem_cons.mp hm with rfl | hm'
        · exact ⟨rfl, by simp⟩
        · obtain ⟨h1, h2⟩ := hmem m hm'
          exact ⟨h1, by simp; right; simpa using h2⟩

/-! ### Lemmas: every built tree validates -/

theorem pairUp_ne_nil : ∀ (l : List HashVal), l ≠ [] → pairUp l ≠ []
  | [], h => absurd rfl h
  | [_], _ => by simp [pairUp]
  | _ :: _ :: _, _ => by simp [pairUp]

theorem buildLevels_ne_nil (l : List HashVal) : buildLevels l ≠ [] := by
  rw [buildLevels]
  split <;> simp

/-- The built level count is `ceil(log2 n) + 1` for `n ≥ 1` leaves. -/
theorem buildLevels_length (l : List HashVal) (h : l ≠ []) :
    (buildLevels l).length = Nat.clog 2 l.length + 1 := by
  rw [buildLevels]
  by_cases h1 : l.length ≤ 1
  · have hlen : l.length = 1 := by
      have := List.length_pos.mpr h
      omega
    rw [if_pos h1, hlen]
    simp [Nat.clog_one_right]
  · rw [if_neg h1]
    have hne : pairUp l ≠ [] := pairUp_ne_nil l h
    have ih := buildLevels_length (pairUp l) hne
    rw [List.length_cons, ih, pairUp_length]
    have h2 : 2 ≤ l.length := by omega
    rw [Nat.clog_of_two_le (by norm_num) h2]
    have harg : (l.length + 1) / 2 = (l.length + 2 - 1) / 2 := by omega
    rw [harg]
termination_by l.length
decreasing_by simp [pairUp_length]; omega

/-- The top level of a built tree is a single hash. -/
theorem buildLevels_last (l : List HashVal) (h : l ≠ []) :
    ∃ r, (buildLevels l).getLastD [] = [r] := by
  rw [buildLevels]
  by_cases h1 : l.length ≤ 1
  · have hlen : l.length = 1 := by
      have := List.length_pos.mpr h
      omega
    obtain ⟨a, ha⟩ := List.length_eq_one.mp hlen
    exact ⟨a, by rw [if_pos h1, ha]; rfl⟩
  · rw [if_neg h1]
    have hne : pairUp l ≠ [] := pairUp_ne_nil l h
    obtain ⟨r, hr⟩ := buildLevels_last (pairUp l) hne
    refine ⟨r, ?_⟩
    rw [List.getLastD_cons]
    rw [List.getLastD_eq_getLast?,
      List.getLast?_eq_getLast _ (buildLevels_ne_nil _)] at hr ⊢
    simpa using hr
termination_by l.length
decreasing_by simp [pairUp_length]; omega

/-- Every tree `buildMerkleTree` builds passes `validateMerkleTree` — the
`InvalidTreeError` branch of `createBlock` is dead code. -/
theorem validateMerkleTree_build (cs : List Complaint) (t : MerkleTree)
    (ht : buildMerkleTree cs = some t) : validateMerkleTree t = true := by
  have hcs : ¬ cs.isEmpty := by
    intro h
    rw [buildMerkleTree, if_pos h] at ht
    exact Option.noConfusion ht
  rw [buildMerkleTree, if_neg hcs] at ht
  obtain rfl := Option.some_inj.mp ht
  have hne : cs.map hashComplaint ≠ [] := by
    simpa [List.isEmpty_iff] using hcs
  have hlen := buildLevels_length (cs.map hashComplaint) hne
  obtain ⟨r, hr⟩ := buildLevels_last (cs.map hashComplaint) hne
  rw [validateMerkleTree]
  simp only [hlen, hr, List.length_map]
  rw [if_neg (by simp)]
  simp

/-! ### Lemmas: the paths through `createBlock` -/

/-- `classifyUpdates` touches only the `complaints` table. -/
theorem classifyUpdates_tables (f : Complaint → ℚ) (sel : List Complaint)
    (s : DBState) :
    (classifyUpdates f sel s).block_metadata = s.block_metadata ∧
    (classifyUpdates f sel s).complaint_blocks = s.complaint_blocks ∧
    (classifyUpdates f sel s).block_creation_log = s.block_creation_log :=
  ⟨rfl, rfl, rfl⟩

/-- An empty unprocessed set aborts the run before any write: the error is
thrown, the state is untouched, there is no result.  (The two queries
before the check are reads.) -/
theorem createBlock_empty_sel (f : Complaint → ℚ) (adminId now : Nat)
    (ipfsHash : String) (failAt : Option Nat) (s : DBState)
    (h : getUnprocessedComplaints s = []) :
    createBlock f adminId now ipfsHash failAt s =
      { error := some "No unprocessed complaints found. Cannot create block.",
        state := s, result := none } := by
  rw [createBlock]
  simp [h]

theorem buildMerkleTree_isSome (cs : List Complaint) (h : cs ≠ []) :
    ∃ t, buildMerkleTree cs = some t := by
  rw [buildMerkleTree]
  rw [if_neg (by simpa [List.isEmpty_iff] using h)]
  exact ⟨_, rfl⟩

/-- The processed list is the selection, annotated; so its complaints are
the selection itself. -/
theorem classifyComplaints_processed (f : Complaint → ℚ) (l : List Complaint) :
    (classifyComplaints f l).processed = l.map (annotate f) := by
  show (classifyFold f ClassAcc.empty l).processed = _
  rw [classifyFold_processed]
  simp [ClassAcc.empty]

theorem processed_complaints_eq (f : Complaint → ℚ) (l : List Complaint) :
    (classifyComplaints f l).processed.map (fun p => p.complaint) = l := by
  have hcomp : ((fun p : ProcessedComplaint => p.complaint) ∘ annotate f) = id := by
    funext c; rfl
  rw [classifyComplaints_processed, List.map_map, hcomp, List.map_id]

/-- The successful run, solved: the Batch row, the membership rows and the
log row appended, and the result summary. -/
theorem createBlock_success_shape (f : Complaint → ℚ) (adminId now : Nat)
    (ipfsHash : String) (s : DBState)
    (h : getUnprocessedComplaints s ≠ []) :
    ∃ tree,
      buildMerkleTree (getUnprocessedComplaints s) = some tree ∧
      createBlock f adminId now ipfsHash none s =
        { error := none,
          state :=
            { complaints :=
                (classifyUpdates f (getUnprocessedComplaints s) s).complaints,
              block_metadata := s.block_metadata ++
                [{ id := nextBlockId s, block_number := nextBlockNumber s,
                   merkle_root := tree.root,
                   complaint_count := (getUnprocessedComplaints s).length,
                   total_priority_score :=
                     (classifyComplaints f (getUnprocessedComplaints s)).totalPriorityScore,
                   top_category :=
                     (classifyComplaints f (getUnprocessedComplaints s)).topCategory,
                   category_stats :=
                     (classifyComplaints f (getUnprocessedComplaints s)).categoryGroups,
                   sentiment_stats :=
                     (classifyComplaints f (getUnprocessedComplaints s)).sentimentStats,
                   created_by_admin_id := adminId, created_at := now,
                   ipfs_metadata_hash := ipfsHash }],
              complaint_blocks := s.complaint_blocks ++
                membershipRows (nextBlockId s) 0
                  (classifyComplaints f (getUnprocessedComplaints s)).processed,
              block_creation_log := s.block_creation_log ++
                [{ admin_id := adminId, block_id := nextBlockId s,
                   complaints_processed := (getUnprocessedComplaints s).length,
                   merkle_tree_depth := tree.depth }] },
          result := some
            { blockId := nextBlockId s, blockNumber := nextBlockNumber s,
              merkleRoot := tree.root,
              complaintCount := (getUnprocessedComplaints s).length,
              topCategory :=
                (classifyComplaints f (getUnprocessedComplaints s)).topCategory,
              totalPriorityScore :=
                (classifyComplaints f (getUnprocessedComplaints s)).totalPriorityScore } } := by
  obtain ⟨tree, htree⟩ := buildMerkleTree_isSome (getUnprocessedComplaints s) h
  refine ⟨tree, htree, ?_⟩
  rw [createBlock]
  have hsel : ¬ (getUnprocessedComplaints s).isEmpty := by
    simpa [List.isEmpty_iff] using h
  rw [if_neg hsel]
  have htree' : buildMerkleTree
      ((classifyComplaints f (getUnprocessedComplaints s)).processed.map
        (fun p => p.complaint)) = some tree := by
    rwa [processed_complaints_eq]
  dsimp only
  rw [htree']
  dsimp only
  rw [if_pos (validateMerkleTree_build _ _ htree')]
  rw [insertMemberships_none]
  have hbm : (classifyUpdates f (getUnprocessedComplaints s) s).block_metadata =
    s.block_metadata := rfl
  simp only [nextBlockNumber, nextBlockId, hbm]
  rfl

/-- Failing the `k`-th membership insert aborts with the Batch row and the
first `k` membership rows already committed, and no log row. -/
theorem insertMemberships_fail (blockId k : Nat) :
    ∀ (ps : List ProcessedComplaint) (i : Nat) (s : DBState),
      i ≤ k → k - i < ps.length →
      insertMemberships blockId (some k) i ps s =
        (some "SQLITE_ERROR: membership insert failed",
         { s with complaint_blocks := s.complaint_blocks ++
             membershipRows blockId i (ps.take (k - i)) })
  | [], i, s, hik, hlen => by simp at hlen
  | p :: ps, i, s, hik, hlen => by
    rw [insertMemberships]
    by_cases hki : k = i
    · subst hki
      rw [if_pos rfl]
      simp [membershipRows]
    · have hik' : i + 1 ≤ k := by omega
      rw [if_neg (by simp; omega)]
      rw [insertMemberships_fail blockId k ps (i + 1) _ hik' (by simp at hlen ⊢; omega)]
      have htake : (p :: ps).take (k - i) = p :: ps.take (k - (i + 1)) := by
        have : k - i = (k - (i + 1)) + 1 := by omega
        rw [this, List.take_succ_cons]
      rw [htake, membershipRows]
      simp

/-- The run with a failure injected at membership insert `k`: the error
propagates, but the Batch row and the first `k` membership rows stay
committed (there is no transaction to roll them back), and no log row is
written. -/
theorem createBlock_fail_shape (f : Complaint → ℚ) (adminId now : Nat)
    (ipfsHash : String) (k : Nat) (s : DBState)
    (h : getUnprocessedComplaints s ≠ [])
    (hk : k < (getUnprocessedComplaints s).length) :
    ∃ tree,
      buildMerkleTree (getUnprocessedComplaints s) = some tree ∧
      createBlock f adminId now ipfsHash (some k) s =
        { error := some "SQLITE_ERROR: membership insert failed",
          state :=
            { complaints :=
                (classifyUpdates f (getUnprocessedComplaints s) s).complaints,
              block_metadata := s.block_metadata ++
                [{ id := nextBlockId s, block_number := nextBlockNumber s,
                   merkle_root := tree.root,
                   complaint_count := (getUnprocessedComplaints s).length,
                   total_priority_score :=
                     (classifyComplaints f (getUnprocessedComplaints s)).totalPriorityScore,
                   top_category :=
                     (classifyComplaints f (getUnprocessedComplaints s)).topCategory,
                   category_stats :=
                     (classifyComplaints f (getUnprocessedComplaints s)).categoryGroups,
                   sentiment_stats :=
                     (classifyComplaints f (getUnprocessedComplaints s)).sentimentStats,
                   created_by_admin_id := adminId, created_at := now,
                   ipfs_metadata_hash := ipfsHash }],
              complaint_blocks := s.complaint_blocks ++
                membershipRows (nextBlockId s) 0
                  ((classifyComplaints f (getUnprocessedComplaints s)).processed.take k),
              block_creation_log := s.block_creation_log },
          result := none } := by
  obtain ⟨tree, htree⟩ := buildMerkleTree_isSome (getUnprocessedComplaints s) h
  refine ⟨tree, htree, ?_⟩
  rw [createBlock]
  have hsel : ¬ (getUnprocessedComplaints s).isEmpty := by
    simpa [List.isEmpty_iff] using h
  rw [if_neg hsel]
  have htree' : buildMerkleTree
      ((classifyComplaints f (getUnprocessedComplaints s)).processed.map
        (fun p => p.complaint)) = some tree := by
    rwa [processed_complaints_eq]
  dsimp only
  rw [htree']
  dsimp only
  rw [if_pos (validateMerkleTree_build _ _ htree')]
  have hplen : (classifyComplaints f (getUnprocessedComplaints s)).processed.length =
      (getUnprocessedComplaints s).length := by
    rw [classifyComplaints_processed]; simp
  rw [insertMemberships_fail _ k _ 0 _ (Nat.zero_le k) (by rw [hplen]; omega)]
  simp only [nextBlockNumber, nextBlockId, Nat.sub_zero]
  rfl

/-- C9: an empty unprocessed-record query makes `createBlock` throw
`'No unprocessed complaints found. Cannot create block.'` with the database
untouched — no Batch row, no membership row, no log row, no record update —
and no result.  (Everything before the check is a read.) -/
theorem C9_no_pending_aborts_without_writes :
    ∀ (f : Complaint → ℚ) (adminId now : Nat) (ipfsHash : String)
      (failAt : Option Nat) (s : DBState),
      getUnprocessedComplaints s = [] →
      (createBlock f adminId now ipfsHash failAt s).error =
        some "No unprocessed complaints found. Cannot create block." ∧
      (createBlock f adminId now ipfsHash failAt s).state = s ∧
      (createBlock f adminId now ipfsHash failAt s).result = none := by
  intro f adminId now ipfsHash failAt s h
  rw [createBlock_empty_sel f adminId now ipfsHash failAt s h]
  exact ⟨rfl, rfl, rfl⟩

/-- A complaint row used in the concrete scenarios. -/
def pC : Complaint :=
  { id := 1, category := "hostel", ipfs_hash := "", ai_sentiment := some (1/10),
    similarity_score := none, created_at := 1 }

/-- An existing block row (for read-path and no-pending scenarios). -/
def rowB : BlockRow :=
  { id := 1, block_number := 1, merkle_root := .digest "11",
    complaint_count := 1, total_priority_score := 3,
    top_category := some "hostel", category_stats := [],
    sentiment_stats := ⟨[], [], []⟩, created_by_admin_id := 1,
    created_at := 5, ipfs_metadata_hash := "" }

/-- The membership row of `rowB`'s block, containing `pC`. -/
def memB : MembershipRow :=
  { block_id := 1, complaint_id := 1, complaint_hash := .digest "11",
    inclusion_order := 0 }

/-- A state in which every complaint is already in a batch (so the
unprocessed query is empty). -/
def s9 : DBState := ⟨[pC], [rowB], [memB], []⟩

/-- Witness for C9: at `s9` (its lone complaint already included in block 1
and created before that block), the empty-selection hypothesis holds and
the run changes nothing. -/
theorem C9_no_pending_aborts_without_writes_witness :
    getUnprocessedComplaints s9 = [] ∧
    (createBlock fHalf 3 7 "" none s9).error =
      some "No unprocessed complaints found. Cannot create block." ∧
    (createBlock fHalf 3 7 "" none s9).state = s9 :=
  ⟨by decide,
   (C9_no_pending_aborts_without_writes fHalf 3 7 "" none s9 (by decide)).1,
   (C9_no_pending_aborts_without_writes fHalf 3 7 "" none s9 (by decide)).2.1⟩

/-! ### C2: no transaction around the persist step -/

theorem membershipRows_length (blockId : Nat) :
    ∀ (i : Nat) (ps : List ProcessedComplaint),
      (membershipRows blockId i ps).length = ps.length
  | _, [] => rfl
  | i, _ :: ps => by
    rw [membershipRows]
    simp [membershipRows_length blockId (i + 1) ps]

/-- A second pending complaint for the failure scenario. -/
def qC : Complaint :=
  { id := 2, category := "mess", ipfs_hash := "", ai_sentiment := some (8/10),
    similarity_score := none, created_at := 2 }

/-- Two pending complaints, empty block tables. -/
def sC2 : DBState := ⟨[pC, qC], [], [], []⟩

/-- C2: the claim asserts the persist step is atomic.  The code violates
it: `createBlock` wraps none of its inserts in a transaction (each `query`
is an autocommitted statement, and there is no rollback in the `catch`),
so when the second membership insert fails, the run aborts with the Batch
row and the first membership row still committed — partial state the claim
says cannot remain. -/
theorem C2_persist_not_atomic :
    (createBlock fHalf 1 9 "" (some 1) sC2).error =
      some "SQLITE_ERROR: membership insert failed" ∧
    (createBlock fHalf 1 9 "" (some 1) sC2).state.block_metadata.length = 1 ∧
    (createBlock fHalf 1 9 "" (some 1) sC2).state.complaint_blocks.length = 1 ∧
    (createBlock fHalf 1 9 "" (some 1) sC2).state.block_creation_log = [] := by
  obtain ⟨tree, htree, heq⟩ := createBlock_fail_shape fHalf 1 9 "" 1 sC2
    (by decide) (by decide)
  rw [heq]
  refine ⟨rfl, by simp [sC2], ?_, by simp [sC2]⟩
  have hproc : (classifyComplaints fHalf (getUnprocessedComplaints sC2)).processed =
      (getUnprocessedComplaints sC2).map (annotate fHalf) :=
    classifyComplaints_processed _ _
  have hlen2 : (getUnprocessedComplaints sC2).length = 2 := by decide
  have hplen : (classifyComplaints fHalf
      (getUnprocessedComplaints sC2)).processed.length = 2 := by
    rw [hproc]; simp [hlen2]
  have hcb : sC2.complaint_blocks = [] := rfl
  simp [hcb, membershipRows_length, hplen]

/-! ### C3: membership exclusivity across runs -/

theorem mem_insertByTime (c a : Complaint) :
    ∀ (l : List Complaint), a ∈ insertByTime c l ↔ a = c ∨ a ∈ l
  | [] => by simp [insertByTime]
  | d :: ds => by
    rw [insertByTime]
    by_cases h : c.created_at < d.created_at
    · simp [h]
    · simp [h, mem_insertByTime c a ds]
      tauto

theorem mem_sortByTime (a : Complaint) :
    ∀ (l : List Complaint), a ∈ sortByTime l ↔ a ∈ l
  | [] => by simp [sortByTime]
  | c :: cs => by
    show a ∈ insertByTime c (sortByTime cs) ↔ _
    rw [mem_insertByTime, mem_sortByTime a cs]
    simp

/-- Complaints the unprocessed query returns are in no membership row. -/
theorem unprocessed_fresh (s : DBState) (c : Complaint)
    (hc : c ∈ getUnprocessedComplaints s) :
    ∀ m ∈ s.complaint_blocks, m.complaint_id ≠ c.id := by
  rw [getUnprocessedComplaints, mem_sortByTime] at hc
  have h2 := (List.mem_filter.mp hc).2
  rw [isUnprocessed, Bool.and_eq_true] at h2
  have hany := h2.2
  intro m hm heq
  rw [Bool.not_eq_true', List.any_eq_false] at hany
  have := hany m hm
  simp [heq] at this

/-- The complaint ids of the processed list are the selection's ids. -/
theorem processed_ids_eq (f : Complaint → ℚ) (l : List Complaint) :
    (classifyComplaints f l).processed.map (fun p => p.complaint.id) =
      l.map (fun c => c.id) := by
  rw [classifyComplaints_processed, List.map_map]
  rfl

/-- Any `createBlock` outcome — success, abort, or injected persistence
failure — only appends membership rows, all with one block id, and only for
complaints no existing membership row mentions. -/
theorem createBlock_cb_growth (f : Complaint → ℚ) (adminId now : Nat)
    (ipfsHash : String) (failAt : Option Nat) (s : DBState) :
    ∃ (bid : Nat) (new : List MembershipRow),
      (createBlock f adminId now ipfsHash failAt s).state.complaint_blocks =
        s.complaint_blocks ++ new ∧
      (∀ m ∈ new, m.block_id = bid) ∧
      (∀ m ∈ new, ∀ m' ∈ s.complaint_blocks, m'.complaint_id ≠ m.complaint_id) := by
  by_cases hsel : getUnprocessedComplaints s = []
  · rw [createBlock_empty_sel f adminId now ipfsHash failAt s hsel]
    exact ⟨0, [], by simp, by simp, by simp⟩
  · obtain ⟨tree, htree⟩ := buildMerkleTree_isSome (getUnprocessedComplaints s) hsel
    have htree' : buildMerkleTree
        ((classifyComplaints f (getUnprocessedComplaints s)).processed.map
          (fun p => p.complaint)) = some tree := by
      rwa [processed_complaints_eq]
    rw [createBlock]
    rw [if_neg (by simpa [List.isEmpty_iff] using hsel)]
    dsimp only
    rw [htree']
    dsimp only
    rw [if_pos (validateMerkleTree_build _ _ htree')]
    obtain ⟨new, hcb, hnew⟩ := insertMemberships_shape
      (nextBlockId (classifyUpdates f (getUnprocessedComplaints s) s)) failAt
      (classifyComplaints f (getUnprocessedComplaints s)).processed 0
      { complaints := (classifyUpdates f (getUnprocessedComplaints s) s).complaints,
        block_metadata :=
          (classifyUpdates f (getUnprocessedComplaints s) s).block_metadata ++ _,
        complaint_blocks :=
          (classifyUpdates f (getUnprocessedComplaints s) s).complaint_blocks,
        block_creation_log :=
          (classifyUpdates f (getUnprocessedComplaints s) s).block_creation_log }
    refine ⟨nextBlockId (classifyUpdates f (getUnprocessedComplaints s) s), new,
      ?_, fun m hm => (hnew m hm).1, fun m hm m' hm' => ?_⟩
    · rcases hins : insertMemberships
          (nextBlockId (classifyUpdates f (getUnprocessedComplaints s) s)) failAt 0
          (classifyComplaints f (getUnprocessedComplaints s)).processed _ with ⟨err, s3⟩
      rw [hins] at hcb
      cases err <;> simpa using hcb
    · obtain ⟨_, hid⟩ := hnew m hm
      rw [processed_ids_eq] at hid
      obtain ⟨c, hcmem, hcid⟩ := List.mem_map.mp hid
      intro heq
      exact unprocessed_fresh s c hcmem m' hm' (heq.trans hcid.symm)

/-- The one correctness-critical invariant: no complaint id in two
different blocks' membership rows. -/
def ExclusiveMembership (s : DBState) : Prop :=
  ∀ m1 ∈ s.complaint_blocks, ∀ m2 ∈ s.complaint_blocks,
    m1.complaint_id = m2.complaint_id → m1.block_id = m2.block_id

theorem createBlock_preserves_exclusive (f : Complaint → ℚ) (adminId now : Nat)
    (ipfsHash : String) (failAt : Option Nat) (s : DBState)
    (h : ExclusiveMembership s) :
    ExclusiveMembership (createBlock f adminId now ipfsHash failAt s).state := by
  obtain ⟨bid, new, hcb, hbid, hfresh⟩ :=
    createBlock_cb_growth f adminId now ipfsHash failAt s
  intro m1 hm1 m2 hm2 hid
  rw [hcb] at hm1 hm2
  rcases List.mem_append.mp hm1 with h1 | h1 <;>
    rcases List.mem_append.mp hm2 with h2 | h2
  · exact h m1 h1 m2 h2 hid
  · exact absurd hid (hfresh m2 h2 m1 h1)
  · exact absurd hid.symm (hfresh m1 h1 m2 h2)
  · rw [hbid m1 h1, hbid m2 h2]

theorem applyStep_preserves_exclusive (f : Complaint → ℚ) (s : DBState)
    (st : Step) (h : ExclusiveMembership s) :
    ExclusiveMembership (applyStep f s st) := by
  cases st with
  | arrive cat ipfs ai sim t => exact h
  | createRun adminId now ipfsHash failAt =>
    exact createBlock_preserves_exclusive f adminId now ipfsHash failAt s h

theorem runSteps_preserves_exclusive (f : Complaint → ℚ) :
    ∀ (steps : List Step) (s : DBState), ExclusiveMembership s →
      ExclusiveMembership (runSteps f s steps)
  | [], s, h => h
  | st :: sts, s, h =>
    runSteps_preserves_exclusive f sts (applyStep f s st)
      (applyStep_preserves_exclusive f s st h)

/-- C3: for every interleaving of record arrivals and `createBatch` runs
(successful, empty, or aborted by an injected persistence failure), no
record id ever appears in the membership rows of two different batches:
once included, never included again.  This holds because the unprocessed
query excludes every id already in `complaint_blocks`, and a single run
inserts all its rows under one block id. -/
theorem C3_membership_exclusive :
    ∀ (f : Complaint → ℚ) (steps : List Step),
      ∀ m1 ∈ (runSteps f DBState.empty steps).complaint_blocks,
        ∀ m2 ∈ (runSteps f DBState.empty steps).complaint_blocks,
          m1.complaint_id = m2.complaint_id → m1.block_id = m2.block_id :=
  fun f steps =>
    runSteps_preserves_exclusive f steps DBState.empty
      (by intro m hm; simp [DBState.empty] at hm)

/-! ### A concrete successful run (one pending complaint) -/

/-- One pending complaint, empty block tables. -/
def s0 : DBState := ⟨[pC], [], [], []⟩

theorem s0_sel : getUnprocessedComplaints s0 = [pC] := rfl

/-- The classification of the single complaint `pC` (severity 0.1 →
critical, weight 3). -/
def gC : CatGroup :=
  { complaints := [pC], count := 1, totalPriorityScore := 3,
    averageSentiment := 3, critical := 1, high := 0, normal := 0 }

theorem classify_pC_eval :
    classifyComplaints fHalf [pC] =
      { categoryGroups := [("hostel", gC)],
        sentimentStats := ⟨[pC], [], []⟩,
        totalPriorityScore := 3,
        topCategory := some "hostel",
        processed := [⟨pC, 1/10, 3, 3⟩] } := by
  norm_num [classifyComplaints, classifyFold, classifyStep, effectiveSentiment,
    getSentimentMultiplier, tierOf, ClassAcc.empty, updateGroup, addToGroup,
    finalizeGroup, CatGroup.init, selectTop, weightedScore, pC, fHalf, gC]
  decide

/-- The tree over the single leaf `digest "11"`. -/
def tree0 : MerkleTree :=
  { levels := [[.digest "11"]], root := .digest "11", depth := 0, leafCount := 1 }

theorem buildMerkleTree_pC : buildMerkleTree [pC] = some tree0 := by
  have hb : buildLevels [hashComplaint pC] = [[hashComplaint pC]] := by
    rw [buildLevels]; simp
  rw [buildMerkleTree]
  simp [hb, tree0, List.isEmpty]
  rfl

/-- The Batch row the successful run persists. -/
def row0 : BlockRow :=
  { id := 1, block_number := 1, merkle_root := .digest "11",
    complaint_count := 1, total_priority_score := 3,
    top_category := some "hostel", category_stats := [("hostel", gC)],
    sentiment_stats := ⟨[pC], [], []⟩, created_by_admin_id := 1,
    created_at := 5, ipfs_metadata_hash := "" }

def mem0 : MembershipRow :=
  { block_id := 1, complaint_id := 1, complaint_hash := .digest "11",
    inclusion_order := 0 }

def log0 : LogRow :=
  { admin_id := 1, block_id := 1, complaints_processed := 1,
    merkle_tree_depth := 0 }

def res0 : BlockResult :=
  { blockId := 1, blockNumber := 1, merkleRoot := .digest "11",
    complaintCount := 1, topCategory := some "hostel",
    totalPriorityScore := 3 }

theorem createBlock_s0_eval :
    createBlock fHalf 1 5 "" none s0 =
      { error := none,
        state := ⟨[pC], [row0], [mem0], [log0]⟩,
        result := some res0 } := by
  obtain ⟨tree, htree, heq⟩ := createBlock_success_shape fHalf 1 5 "" s0
    (by rw [s0_sel]; simp)
  rw [s0_sel, buildMerkleTree_pC] at htree
  obtain rfl : tree0 = tree := Option.some_inj.mp htree
  rw [heq]
  simp only [s0_sel, classify_pC_eval]
  rfl

/-! ### C3 witness scenario: one arrival, one run -/

def steps3 : List Step :=
  [Step.arrive "hostel" "" (some (1/10)) none 1,
   Step.createRun 1 5 "" none]

/-- Witness for C3: in the concrete two-step run (one record arrives, one
batch is created) the theorem applies to the one membership row, with the
membership and id-equality hypotheses discharged concretely. -/
theorem C3_membership_exclusive_witness :
    mem0 ∈ (runSteps fHalf DBState.empty steps3).complaint_blocks ∧
    mem0.block_id = mem0.block_id := by
  have hrun : runSteps fHalf DBState.empty steps3 =
      (createBlock fHalf 1 5 "" none s0).state := rfl
  have hmem : mem0 ∈ (runSteps fHalf DBState.empty steps3).complaint_blocks := by
    rw [hrun, createBlock_s0_eval]; simp
  exact ⟨hmem, C3_membership_exclusive fHalf steps3 mem0 hmem mem0 hmem rfl⟩

/-! ### C8: preview stats versus the persisted Batch row -/

/-- C8 counterexample: the claim says preview stats are byte-identical to
what `createBatch` persists.  At the one-complaint state, the preview's
`categoryStats` is the count map `{"hostel": 1}` and its `sentimentStats`
the count map `{critical: 1, high: 0, normal: 0}`, while the Batch row's
`category_stats` column holds the serialized full group objects (with
`complaints` arrays) and `sentiment_stats` the serialized tier arrays of
complaint objects — different JSON values, hence different bytes. -/
theorem C8_preview_not_byte_identical :
    ∃ pr, (getBlockCreationPreview fHalf s0).1 = some pr ∧
      (createBlock fHalf 1 5 "" none s0).state.block_metadata = [row0] ∧
      categoryStatsJson row0.category_stats ≠
        previewCategoryStatsJson pr.categoryStats ∧
      sentimentStatsJson row0.sentiment_stats ≠
        previewSentimentStatsJson pr.sentimentStats := by
  refine ⟨{ complaintCount := 1, topCategory := some "hostel",
            totalPriorityScore := 3, categoryStats := [("hostel", 1)],
            sentimentStats := (1, 0, 0),
            categoryBreakdown := [("hostel", 1, 3, 3)],
            sentimentBreakdown := (1, 0, 0),
            complaintsList := [(1, "hostel", 1, some (1/10))] }, ?_, ?_, ?_, ?_⟩
  · rw [getBlockCreationPreview]
    rw [s0_sel]
    rw [if_neg (by simp)]
    simp only [classify_pC_eval]
    rfl
  · rw [createBlock_s0_eval]
  · simp [categoryStatsJson, previewCategoryStatsJson, catGroupJson, gC, row0]
  · simp [sentimentStatsJson, previewSentimentStatsJson, row0]

/-- C8 amended: given the same unprocessed-record set and a deterministic
classifier, the preview's scalar stats (record count, top category, total
priority score) equal those persisted in the Batch row, the preview's
per-category counts equal the counts inside the persisted category groups,
and the preview's per-tier counts equal the lengths of the persisted tier
arrays — but the persisted `category_stats`/`sentiment_stats` columns hold
the full group objects and complaint arrays, not the preview's count maps,
so the serialized stats are not byte-identical. -/
theorem C8_preview_matches_persisted_stats :
    ∀ (f : Complaint → ℚ) (adminId now : Nat) (ipfsHash : String) (s : DBState),
      getUnprocessedComplaints s ≠ [] →
      ∃ (pr : PreviewResult) (row : BlockRow),
        (getBlockCreationPreview f s).1 = some pr ∧
        (createBlock f adminId now ipfsHash none s).error = none ∧
        (createBlock f adminId now ipfsHash none s).state.block_metadata =
          s.block_metadata ++ [row] ∧
        row.complaint_count = pr.complaintCount ∧
        row.top_category = pr.topCategory ∧
        row.total_priority_score = pr.totalPriorityScore ∧
        row.category_stats.map (fun p => (p.1, p.2.count)) = pr.categoryStats ∧
        (row.sentiment_stats.critical.length, row.sentiment_stats.high.length,
          row.sentiment_stats.normal.length) = pr.sentimentStats := by
  intro f adminId now ipfsHash s h
  obtain ⟨tree, htree, heq⟩ := createBlock_success_shape f adminId now ipfsHash s h
  refine ⟨{ complaintCount := (getUnprocessedComplaints s).length,
            topCategory :=
              (classifyComplaints f (getUnprocessedComplaints s)).topCategory,
            totalPriorityScore :=
              (classifyComplaints f (getUnprocessedComplaints s)).totalPriorityScore,
            categoryStats :=
              (classifyComplaints f (getUnprocessedComplaints s)).categoryGroups.map
                (fun p => (p.1, p.2.count)),
            sentimentStats :=
              ((classifyComplaints f (getUnprocessedComplaints s)).sentimentStats.critical.length,
               (classifyComplaints f (getUnprocessedComplaints s)).sentimentStats.high.length,
               (classifyComplaints f (getUnprocessedComplaints s)).sentimentStats.normal.length),
            categoryBreakdown :=
              (classifyComplaints f (getUnprocessedComplaints s)).categoryGroups.map
                (fun p => (p.1, p.2.count, p.2.totalPriorityScore,
                  p.2.averageSentiment)),
            sentimentBreakdown :=
              ((classifyComplaints f (getUnprocessedComplaints s)).sentimentStats.critical.length,
               (classifyComplaints f (getUnprocessedComplaints s)).sentimentStats.high.length,
               (classifyComplaints f (getUnprocessedComplaints s)).sentimentStats.normal.length),
            complaintsList := (getUnprocessedComplaints s).map
              (fun c => (c.id, c.category, c.created_at, c.ai_sentiment)) },
          { id := nextBlockId s, block_number := nextBlockNumber s,
            merkle_root := tree.root,
            complaint_count := (getUnprocessedComplaints s).length,
            total_priority_score :=
              (classifyComplaints f (getUnprocessedComplaints s)).totalPriorityScore,
            top_category :=
              (classifyComplaints f (getUnprocessedComplaints s)).topCategory,
            category_stats :=
              (classifyComplaints f (getUnprocessedComplaints s)).categoryGroups,
            sentiment_stats :=
              (classifyComplaints f (getUnprocessedComplaints s)).sentimentStats,
            created_by_admin_id := adminId, created_at := now,
            ipfs_metadata_hash := ipfsHash },
          ?_, ?_, ?_, rfl, rfl, rfl, rfl, rfl⟩
  · rw [getBlockCreationPreview]
    rw [if_neg (by simpa [List.isEmpty_iff] using h)]
  · rw [heq]
  · rw [heq]

/-- Witness for C8's amended statement at the concrete one-complaint
state. -/
theorem C8_preview_matches_persisted_stats_witness :
    ∃ (pr : PreviewResult) (row : BlockRow),
      (getBlockCreationPreview fHalf s0).1 = some pr ∧
      (createBlock fHalf 1 5 "" none s0).error = none ∧
      (createBlock fHalf 1 5 "" none s0).state.block_metadata =
        s0.block_metadata ++ [row] ∧
      row.complaint_count = pr.complaintCount ∧
      row.top_category = pr.topCategory ∧
      row.total_priority_score = pr.totalPriorityScore ∧
      row.category_stats.map (fun p => (p.1, p.2.count)) = pr.categoryStats ∧
      (row.sentiment_stats.critical.length, row.sentiment_stats.high.length,
        row.sentiment_stats.normal.length) = pr.sentimentStats :=
  C8_preview_matches_persisted_stats fHalf 1 5 "" s0 (by rw [s0_sel]; simp)

/-! ### C7: the block-detail read path -/

/-- C7: the claim says a missing batch number yields a not-found error and
an existing one yields the batch with its members ordered by inclusion
order.  The not-found half holds, but for the existing block the code's
member query filters `complaint_blocks` on the nonexistent column
`block_number` (the schema keys memberships by `block_id`), so SQLite
rejects the statement and the call throws instead of returning the
members. -/
theorem C7_detail_errors_on_existing_block :
    (∃ b ∈ s9.block_metadata, b.block_number = 1 ∧ memB ∈ s9.complaint_blocks) ∧
    getBlockDetails s9 1 =
      .error ("Failed to fetch block details: SQLITE_ERROR: no such column: " ++
        "cb.block_number") ∧
    getBlockDetails s9 2 =
      .error "Failed to fetch block details: Block 2 not found" := by
  refine ⟨⟨rowB, by simp [s9], rfl, by simp [s9]⟩, ?_, ?_⟩
  · rw [getBlockDetails]
    have hfind : s9.block_metadata.find? (fun b => b.block_number == 1) =
        some rowB := rfl
    rw [hfind]
    dsimp only
    rw [if_neg (by decide)]
  · rw [getBlockDetails]
    have hfind : s9.block_metadata.find? (fun b => b.block_number == 2) =
        none := rfl
    rw [hfind]
    rfl

end SGS
